import Mathlib

/-!
Verification of the CIM log-parsing and artifact-generation core
(`utils/cim/log_parser.py`, `utils/cim/llm_chain.py`,
`utils/cim/output_generator.py`).

The Python code is shallowly embedded: text is `String` / `List Char`,
Python dicts with insertion order become association lists, the float
confidence scores become `ℚ`, and the specific regular expressions used by
the source are compiled by hand into executable scanners that follow the
backtracking behaviour of Python's `re` on those patterns.  `json.loads`
is a library call and is passed in as a decoding parameter
`jdec : String → Option JsonVal`; a `none` result models a
`json.JSONDecodeError`.
-/

/-! ### Python character classes and string primitives -/

/-- Python whitespace for `str.strip()` and the regex class `\s`
(ASCII range; all inputs in the claims are ASCII). -/
def isPyWs (c : Char) : Bool :=
  c = ' ' || c = '\t' || c = '\n' || c = '\r' ||
    c = Char.ofNat 11 || c = Char.ofNat 12

/-- The regex class `\w` (ASCII range). -/
def isWordChar (c : Char) : Bool :=
  ('a' ≤ c && c ≤ 'z') || ('A' ≤ c && c ≤ 'Z') || ('0' ≤ c && c ≤ '9') || c = '_'

/-- The regex class `\d` (ASCII range). -/
def isDigitChar (c : Char) : Bool :=
  '0' ≤ c && c ≤ '9'

/-- `str.strip()` on a character list. -/
def pyStripL (l : List Char) : List Char :=
  ((l.dropWhile isPyWs).reverse.dropWhile isPyWs).reverse

/-- `str.strip()` -/
def pyStrip (s : String) : String :=
  ⟨pyStripL s.data⟩

/-- `str.strip(chars)`: removes any of the given characters from both ends. -/
def pyStripSetL (cs : List Char) (l : List Char) : List Char :=
  ((l.dropWhile (cs.contains ·)).reverse.dropWhile (cs.contains ·)).reverse

/-- `str.strip(chars)` on `String`. -/
def pyStripSet (cs : List Char) (s : String) : String :=
  ⟨pyStripSetL cs s.data⟩

/-- ASCII `str.lower()` for a character. -/
def pyLowerChar (c : Char) : Char :=
  if 'A' ≤ c && c ≤ 'Z' then Char.ofNat (c.toNat + 32) else c

/-- `str.lower()` (ASCII range). -/
def pyLower (s : String) : String :=
  ⟨s.data.map pyLowerChar⟩

/-- Python `str.split(sep)` for a single-character separator:
`"".split(',') = [""]`, empty segments kept. -/
def pySplitCharL (sep : Char) : List Char → List (List Char)
  | [] => [[]]
  | c :: rest =>
    let r := pySplitCharL sep rest
    if c = sep then [] :: r
    else
      match r with
      | [] => [[c]]
      | seg :: segs => (c :: seg) :: segs

/-- `str.split(sep)` on `String`. -/
def pySplitChar (sep : Char) (s : String) : List String :=
  (pySplitCharL sep s.data).map (⟨·⟩)

/-- Number of occurrences of a character (`str.count` for one character). -/
def countChar (c : Char) (l : List Char) : Nat :=
  l.countP (· = c)

/-- `str.startswith(p)` -/
def startsWithL (p l : List Char) : Bool :=
  p.isPrefixOf l

/-- `str.endswith(p)` -/
def endsWithL (p l : List Char) : Bool :=
  p.isSuffixOf l

/-- `needle in haystack` (substring containment) as a Bool, by scanning
every suffix. -/
def containsSubL (needle : List Char) : List Char → Bool
  | [] => needle.isPrefixOf []
  | c :: rest => needle.isPrefixOf (c :: rest) || containsSubL needle rest

/-- Maximal prefix run satisfying `p`, with the remainder. -/
def takeRun (p : Char → Bool) : List Char → List Char × List Char
  | [] => ([], [])
  | c :: rest =>
    if p c then
      let (r, rest') := takeRun p rest
      (c :: r, rest')
    else ([], c :: rest)

/-- Python `str(int)` for the integers produced by the JSON model. -/
def pyIntStr (n : Int) : String :=
  if n < 0 then "-" ++ Nat.repr n.natAbs else Nat.repr n.natAbs

/-! ### The key=value tokenizer

`re.findall` of the source's `kv_pattern`, i.e. `(\w+)=("[^"]*"|'[^']*'|[^\s]+)`.
`\w+` and `=` are disjoint character classes, so the greedy `\w+` needs no
backtracking; on a failed attempt the scanner advances one character, on a
success it resumes after the (always non-empty) match. -/

/-- The value alternation `"[^"]*"|'[^']*'|[^\s]+` tried at the current
position, returning the matched text (quotes included) and the rest. -/
def kvValue : List Char → Option (List Char × List Char)
  | [] => none
  | c :: rest =>
    if c = '"' then
      let (mid, rest') := takeRun (· != '"') rest
      match rest' with
      | '"' :: rest'' => some ('"' :: (mid ++ ['"']), rest'')
      | _ =>
        let (v, r) := takeRun (fun d => !isPyWs d) (c :: rest)
        if v.isEmpty then none else some (v, r)
    else if c = '\'' then
      let (mid, rest') := takeRun (· != '\'') rest
      match rest' with
      | '\'' :: rest'' => some ('\'' :: (mid ++ ['\'']), rest'')
      | _ =>
        let (v, r) := takeRun (fun d => !isPyWs d) (c :: rest)
        if v.isEmpty then none else some (v, r)
    else
      let (v, r) := takeRun (fun d => !isPyWs d) (c :: rest)
      if v.isEmpty then none else some (v, r)

/-- Fuelled scanning loop of `re.findall` for the kv pattern; the fuel is
the input length, which bounds the number of scanning steps. -/
def kvFindAllAux : Nat → List Char → List (List Char × List Char)
  | 0, _ => []
  | _ + 1, [] => []
  | fuel + 1, c :: rest =>
    let (w, r1) := takeRun isWordChar (c :: rest)
    match w, r1 with
    | _ :: _, '=' :: r2 =>
      (match kvValue r2 with
       | some (v, r3) => (w, v) :: kvFindAllAux fuel r3
       | none => kvFindAllAux fuel rest)
    | _, _ => kvFindAllAux fuel rest

/-- `kv_pattern.findall(line)`. -/
def kvFindAll (l : List Char) : List (List Char × List Char) :=
  kvFindAllAux l.length l

/-! ### The field table

`fields` is a Python dict from field name to a growable list of observed
values; insertion order is significant, so it is modelled as an
association list.  `fieldsAppend` is the idiom
`if key not in fields: fields[key] = [] ; fields[key].append(v)`. -/

abbrev Fields := List (String × List String)

/-- `key in fields` -/
def hasKey (fs : Fields) (k : String) : Bool :=
  fs.any (fun p => p.1 == k)

/-- Append a value to a key's list, creating the key at the end when absent. -/
def fieldsAppend (fs : Fields) (k v : String) : Fields :=
  if hasKey fs k then fs.map (fun p => if p.1 == k then (p.1, p.2 ++ [v]) else p)
  else fs ++ [(k, [v])]

/-- `fields[key] = []` (used by the CSV header loop). -/
def fieldsInitKey (fs : Fields) (k : String) : Fields :=
  if hasKey fs k then fs.map (fun p => if p.1 == k then (p.1, ([] : List String)) else p)
  else fs ++ [(k, [])]

/-! ### JSON values

The result of `json.loads` on one line.  JSON numbers are modelled as
integers (every number in the spec's examples and claims is an integer;
the claims do not depend on fractional literals).  The list/object
nesting is unfolded into a mutual inductive so that all recursions below
are structural and compute by `rfl`/`decide`. -/

mutual
inductive JsonVal where
  | jnull
  | jbool (b : Bool)
  | jint (n : Int)
  | jstr (s : String)
  | jarr (items : JsonArr)
  | jobj (entries : JsonObj)
inductive JsonArr where
  | anil
  | acons (hd : JsonVal) (tl : JsonArr)
inductive JsonObj where
  | onil
  | ocons (k : String) (v : JsonVal) (tl : JsonObj)
end

/-- Python truthiness of a decoded JSON value. -/
def truthy : JsonVal → Bool
  | .jnull => false
  | .jbool b => b
  | .jint n => n != 0
  | .jstr s => s != ""
  | .jarr .anil => false
  | .jarr _ => true
  | .jobj .onil => false
  | .jobj _ => true

def optTruthy : Option JsonVal → Bool
  | some v => truthy v
  | none => false

/-- Object member lookup (`json.loads` yields unique keys, last
duplicate winning, so first-match lookup is faithful). -/
def objGet : JsonObj → String → Option JsonVal
  | .onil, _ => none
  | .ocons k v tl, key => if k == key then some v else objGet tl key

/-- `event.get(k)`.  In Python a decoded non-dict line would raise
`AttributeError` at the `.get` call (only `JSONDecodeError` is caught);
such lines are modelled as supplying no value. -/
def jsonGet (v : JsonVal) (k : String) : Option JsonVal :=
  match v with
  | .jobj entries => objGet entries k
  | _ => none

/-- Python `x or y` on optional values (`None` and falsy values yield
the right operand). -/
def pyOr (a b : Option JsonVal) : Option JsonVal :=
  match a with
  | some v => if truthy v then some v else b
  | none => b

/-- `event.get('vendor') or event.get('Vendor') or event.get('source_vendor')` -/
def vendorCand (e : JsonVal) : Option JsonVal :=
  pyOr (jsonGet e "vendor") (pyOr (jsonGet e "Vendor") (jsonGet e "source_vendor"))

/-- `event.get('product') or event.get('Product') or event.get('source_product')` -/
def productCand (e : JsonVal) : Option JsonVal :=
  pyOr (jsonGet e "product") (pyOr (jsonGet e "Product") (jsonGet e "source_product"))

/-- `str(value)` for the scalar leaves reached by the extraction
recursion (containers are never stringified: the recursion descends
into them first). -/
def jsonLeafStr : JsonVal → String
  | .jnull => "None"
  | .jbool true => "True"
  | .jbool false => "False"
  | .jint n => pyIntStr n
  | .jstr s => s
  | .jarr _ => ""
  | .jobj _ => ""

/-! ### `_extract_fields_recursive` -/

mutual
/-- `_extract_fields_recursive(obj, fields, prefix)`: dicts recurse with
dot-joined key paths, lists recurse per element under the same prefix,
and a scalar reached outside a dict member position is dropped. -/
def extract_fields_recursive (obj : JsonVal) (fields : Fields) (pre : String) : Fields :=
  match obj with
  | .jobj entries => extractObjEntries entries fields pre
  | .jarr items => extractArrItems items fields pre
  | _ => fields
/-- The `for key, value in obj.items()` loop of the dict branch. -/
def extractObjEntries (entries : JsonObj) (fields : Fields) (pre : String) : Fields :=
  match entries with
  | .onil => fields
  | .ocons k v tl =>
    let fieldName := if pre == "" then k else pre ++ "." ++ k
    let fields' :=
      match v with
      | .jobj _ | .jarr _ => extract_fields_recursive v fields fieldName
      | leaf => fieldsAppend fields fieldName (jsonLeafStr leaf)
    extractObjEntries tl fields' pre
/-- The `for item in obj` loop of the list branch. -/
def extractArrItems (items : JsonArr) (fields : Fields) (pre : String) : Fields :=
  match items with
  | .anil => fields
  | .acons hd tl => extractArrItems tl (extract_fields_recursive hd fields pre) pre
end

/-! ### `_parse_json` -/

/-- The per-line loop of `_parse_json` over the decode results of the
first 100 lines (`none` is a `JSONDecodeError`, whose line contributes
nothing).  The vendor/product slots follow `if not vendor: vendor = ...`:
they are recomputed while falsy and frozen once truthy. -/
def parse_json_events :
    List (Option JsonVal) → Fields → Option JsonVal → Option JsonVal →
      Fields × Option JsonVal × Option JsonVal
  | [], fs, v, p => (fs, v, p)
  | none :: rest, fs, v, p => parse_json_events rest fs v p
  | some e :: rest, fs, v, p =>
    parse_json_events rest (extract_fields_recursive e fs "")
      (if optTruthy v then v else vendorCand e)
      (if optTruthy p then p else productCand e)

def parse_json (jdec : String → Option JsonVal) (lines : List String) :
    Fields × Option JsonVal × Option JsonVal :=
  parse_json_events ((lines.take 100).map jdec) [] none none

/-! ### CEF / LEEF matching

`cef_pattern = CEF:(\d+)\|([^|]*)\|([^|]*)\|([^|]*)\|([^|]*)\|([^|]*)\|([^|]*)\|(.*)`
and `leef_pattern = LEEF:(\d+\.\d+)\|([^|]*)\|([^|]*)\|([^|]*)\|(.*)`,
applied with `.search` (leftmost match).  All quantifiers here have no
effective backtracking: adjacent character classes are disjoint. -/

/-- `([^|]*)\|`: scan to the next pipe (which must exist). -/
def pipeGroup (l : List Char) : Option (List Char × List Char) :=
  let (g, r) := takeRun (· != '|') l
  match r with
  | '|' :: r' => some (g, r')
  | _ => none

/-- `n` repetitions of `([^|]*)\|`. -/
def pipeGroups : Nat → List Char → Option (List (List Char) × List Char)
  | 0, l => some ([], l)
  | n + 1, l =>
    match pipeGroup l with
    | some (g, r) => (pipeGroups n r).map (fun gr => (g :: gr.1, gr.2))
    | none => none

/-- Try the CEF pattern anchored at the current position; the eight
capture groups on success. -/
def cefMatchAt (l : List Char) : Option (List (List Char)) :=
  if startsWithL "CEF:".data l then
    let (d, r1) := takeRun isDigitChar (l.drop 4)
    if d.isEmpty then none else
    match r1 with
    | '|' :: r2 =>
      match pipeGroups 6 r2 with
      | some (gs, rest) => some (d :: gs ++ [rest])
      | none => none
    | _ => none
  else none

/-- `cef_pattern.search(line)`. -/
def cefSearch : List Char → Option (List (List Char))
  | [] => none
  | c :: rest =>
    match cefMatchAt (c :: rest) with
    | some gs => some gs
    | none => cefSearch rest

/-- Try the LEEF pattern anchored at the current position; the five
capture groups on success. -/
def leefMatchAt (l : List Char) : Option (List (List Char)) :=
  if startsWithL "LEEF:".data l then
    let (d1, r1) := takeRun isDigitChar (l.drop 5)
    if d1.isEmpty then none else
    match r1 with
    | '.' :: r2 =>
      let (d2, r3) := takeRun isDigitChar r2
      if d2.isEmpty then none else
      match r3 with
      | '|' :: r4 =>
        match pipeGroups 3 r4 with
        | some (gs, rest) => some ((d1 ++ '.' :: d2) :: gs ++ [rest])
        | none => none
      | _ => none
    | _ => none
  else none

/-- `leef_pattern.search(line)`. -/
def leefSearch : List Char → Option (List (List Char))
  | [] => none
  | c :: rest =>
    match leefMatchAt (c :: rest) with
    | some gs => some gs
    | none => leefSearch rest

/-! ### Syslog matching

Detection uses `^<\d+>|^\w{3}\s+\d{1,2}\s+\d{2}:\d{2}:\d{2}` (`re.match`);
extraction uses
`^(?:<\d+>)?(\w{3}\s+\d{1,2}\s+\d{2}:\d{2}:\d{2})\s+(\S+)\s+(\S+?):\s*(.*)`.
The only quantifier with real backtracking is `\d{1,2}` (two digits first,
then one); `\S+?` expands lazily until the literal colon. -/

/-- `\d{2}:\d{2}:\d{2}` as a prefix, returning the matched text and rest. -/
def matchTime : List Char → Option (List Char × List Char)
  | a :: b :: ':' :: c :: d :: ':' :: e :: f :: rest =>
    if isDigitChar a && isDigitChar b && isDigitChar c && isDigitChar d &&
        isDigitChar e && isDigitChar f
    then some ([a, b, ':', c, d, ':', e, f], rest) else none
  | _ => none

/-- `\d{1,2}\s+\d{2}:\d{2}:\d{2}` as a prefix (greedy day-of-month with
one-digit fallback), returning the matched text and rest. -/
def matchDayTime (l : List Char) : Option (List Char × List Char) :=
  match l with
  | d1 :: rest =>
    if isDigitChar d1 then
      (match rest with
       | d2 :: rest2 =>
         if isDigitChar d2 then
           let (ws, r) := takeRun isPyWs rest2
           if ws.isEmpty then none else
           match matchTime r with
           | some (t, rest') => some (d1 :: d2 :: ws ++ t, rest')
           | none => none
         else none
       | [] => none).orElse
      (fun _ =>
        let (ws, r) := takeRun isPyWs rest
        if ws.isEmpty then none else
        match matchTime r with
        | some (t, rest') => some (d1 :: ws ++ t, rest')
        | none => none)
    else none
  | [] => none

/-- `\w{3}\s+\d{1,2}\s+\d{2}:\d{2}:\d{2}` as a prefix, returning the
matched text and rest. -/
def matchTimestamp (l : List Char) : Option (List Char × List Char) :=
  match l with
  | a :: b :: c :: rest =>
    if isWordChar a && isWordChar b && isWordChar c then
      let (ws1, r1) := takeRun isPyWs rest
      if ws1.isEmpty then none else
      match matchDayTime r1 with
      | some (dt, rest') => some (a :: b :: c :: ws1 ++ dt, rest')
      | none => none
    else none
  | _ => none

/-- `re.match` of the detection pattern
`^<\d+>|^\w{3}\s+\d{1,2}\s+\d{2}:\d{2}:\d{2}`. -/
def syslogDetectL (l : List Char) : Bool :=
  (match l with
   | '<' :: r =>
     let (ds, r') := takeRun isDigitChar r
     !ds.isEmpty &&
       (match r' with
        | '>' :: _ => true
        | _ => false)
   | _ => false) ||
  (matchTimestamp l).isSome

/-- The optional `(?:<\d+>)?` prefix of the extraction pattern (if it
fails downstream the engine retries without it, but `<` is not a word
character, so dropping the prefix when present is equivalent). -/
def dropPrio (l : List Char) : List Char :=
  match l with
  | '<' :: r =>
    let (ds, r') := takeRun isDigitChar r
    if ds.isEmpty then l else
    match r' with
    | '>' :: r'' => r''
    | _ => l
  | _ => l

/-- `(\S+?):` — the shortest non-empty run of non-whitespace characters
followed by a literal colon (which is consumed). -/
def lazyNonWsColon : List Char → Option (List Char × List Char)
  | [] => none
  | c :: rest =>
    if isPyWs c then none
    else
      match rest with
      | ':' :: r => some ([c], r)
      | _ =>
        match lazyNonWsColon rest with
        | some (p, r) => some (c :: p, r)
        | none => none

/-- `re.match` of the syslog extraction pattern: timestamp, hostname,
process and message groups. -/
def syslogParseLine (l : List Char) :
    Option (List Char × List Char × List Char × List Char) :=
  match matchTimestamp (dropPrio l) with
  | none => none
  | some (ts, r1) =>
    let (ws1, r2) := takeRun isPyWs r1
    if ws1.isEmpty then none else
    let (host, r3) := takeRun (fun c => !isPyWs c) r2
    if host.isEmpty then none else
    let (ws2, r4) := takeRun isPyWs r3
    if ws2.isEmpty then none else
    match lazyNonWsColon r4 with
    | none => none
    | some (proc, r5) =>
      let (_, r6) := takeRun isPyWs r5
      some (ts, host, proc, r6)

/-! ### `_detect_format` -/

inductive LogFormat where
  | JSON | XML | KEY_VALUE | SYSLOG | CEF | LEEF | CSV | UNKNOWN
deriving DecidableEq, Repr

/-- `_detect_format(lines, filename)`.  The decision order of the
source: JSON, XML, CEF, LEEF, CSV (filename hint or comma, and at least
three commas), syslog shape, at least three key=value tokens, unknown. -/
def detect_format (jdec : String → Option JsonVal) (lines : List String)
    (filename : String) : LogFormat × ℚ :=
  let sample := lines.headD ""
  let sl := sample.data
  if startsWithL ['{'] (pyStripL sl) && (jdec sample).isSome then
    (LogFormat.JSON, 0.95)
  else if startsWithL ['<'] (pyStripL sl) then
    (LogFormat.XML, 0.9)
  else if containsSubL "CEF:".data sl then
    (LogFormat.CEF, 0.95)
  else if containsSubL "LEEF:".data sl then
    (LogFormat.LEEF, 0.95)
  else if (endsWithL ".csv".data filename.data || sl.contains ',') ∧
      3 ≤ countChar ',' sl then
    (LogFormat.CSV, 0.8)
  else if syslogDetectL sl then
    (LogFormat.SYSLOG, 0.85)
  else if 3 ≤ (kvFindAll sl).length then
    (LogFormat.KEY_VALUE, 0.7)
  else
    (LogFormat.UNKNOWN, 0.3)

/-! ### The remaining extractors -/

/-- `.strip('"\'')` applied to an extension/attribute value. -/
def stripQuotePair (s : String) : String :=
  pyStripSet ['"', '\''] s

/-- Merge the kv pairs of a text block into the field table. -/
def mergeKv (fs : Fields) (l : List Char) : Fields :=
  (kvFindAll l).foldl
    (fun fs kv => fieldsAppend fs ⟨kv.1⟩ (stripQuotePair ⟨kv.2⟩)) fs

/-- `_parse_key_value(lines)`. -/
def parse_key_value (lines : List String) : Fields :=
  (lines.take 100).foldl (fun fs line => mergeKv fs line.data) []

/-- The fixed keys pre-initialised by `_parse_cef`. -/
def cefInit : Fields :=
  [("cef_version", []), ("device_vendor", []), ("device_product", []),
   ("device_version", []), ("signature_id", []), ("name", []), ("severity", [])]

/-- `vendor = vendor or g`: keep a truthy (non-empty) string, otherwise
take the new group. -/
def strOr (v : Option String) (g : String) : Option String :=
  match v with
  | some s => if s == "" then some g else some s
  | none => some g

/-- The per-line body of `_parse_cef`. -/
def parse_cef_line (st : Fields × Option String × Option String) (line : String) :
    Fields × Option String × Option String :=
  match cefSearch line.data with
  | none => st
  | some gs =>
    let g := fun i => (⟨gs.getD i []⟩ : String)
    let fs1 := fieldsAppend st.1 "cef_version" (g 0)
    let v' := strOr st.2.1 (g 1)
    let p' := strOr st.2.2 (g 2)
    let fs2 := fieldsAppend fs1 "device_vendor" (g 1)
    let fs3 := fieldsAppend fs2 "device_product" (g 2)
    let fs4 := fieldsAppend fs3 "device_version" (g 3)
    let fs5 := fieldsAppend fs4 "signature_id" (g 4)
    let fs6 := fieldsAppend fs5 "name" (g 5)
    let fs7 := fieldsAppend fs6 "severity" (g 6)
    (mergeKv fs7 (gs.getD 7 []), v', p')

/-- `_parse_cef(lines)`. -/
def parse_cef (lines : List String) : Fields × Option String × Option String :=
  (lines.take 100).foldl parse_cef_line (cefInit, none, none)

/-- The fixed keys pre-initialised by `_parse_leef`. -/
def leefInit : Fields :=
  [("leef_version", []), ("vendor", []), ("product", []), ("version", [])]

/-- The per-line body of `_parse_leef`. -/
def parse_leef_line (st : Fields × Option String × Option String) (line : String) :
    Fields × Option String × Option String :=
  match leefSearch line.data with
  | none => st
  | some gs =>
    let g := fun i => (⟨gs.getD i []⟩ : String)
    let fs1 := fieldsAppend st.1 "leef_version" (g 0)
    let v' := strOr st.2.1 (g 1)
    let p' := strOr st.2.2 (g 2)
    let fs2 := fieldsAppend fs1 "vendor" (g 1)
    let fs3 := fieldsAppend fs2 "product" (g 2)
    let fs4 := fieldsAppend fs3 "version" (g 3)
    (mergeKv fs4 (gs.getD 4 []), v', p')

/-- `_parse_leef(lines)`. -/
def parse_leef (lines : List String) : Fields × Option String × Option String :=
  (lines.take 100).foldl parse_leef_line (leefInit, none, none)

/-- `_parse_csv(lines)`: the first line is the header row (naive comma
split, headers stripped); rows 2..101 contribute cell `i` to
`headers[i]`, values stripped of whitespace then surrounding double
quotes. -/
def parse_csv (lines : List String) : Fields :=
  match lines with
  | [] => []
  | l0 :: rest =>
    let headers := (pySplitChar ',' l0).map pyStrip
    let fs0 := headers.foldl fieldsInitKey []
    (rest.take 100).foldl
      (fun fs line =>
        let values := (pySplitChar ',' line).map
          (fun v => pyStripSet ['"'] (pyStrip v))
        (values.zip headers).foldl (fun fs vh => fieldsAppend fs vh.2 vh.1) fs)
      fs0

/-- The fixed keys pre-initialised by `_parse_syslog`. -/
def syslogInit : Fields :=
  [("timestamp", []), ("hostname", []), ("process", []), ("message", [])]

/-- `_parse_syslog(lines)`. -/
def parse_syslog (lines : List String) : Fields :=
  (lines.take 100).foldl
    (fun fs line =>
      match syslogParseLine line.data with
      | none => fs
      | some (ts, host, proc, msg) =>
        let fs1 := fieldsAppend fs "timestamp" ⟨ts⟩
        let fs2 := fieldsAppend fs1 "hostname" ⟨host⟩
        let fs3 := fieldsAppend fs2 "process" ⟨proc⟩
        let fs4 := fieldsAppend fs3 "message" ⟨msg⟩
        mergeKv fs4 msg)
    syslogInit

/-! ### `parse_file` -/

structure ParsedLog where
  format : LogFormat
  fields : Fields
  sample_events : List String
  vendor : Option JsonVal := none
  product : Option JsonVal := none
  confidence : ℚ := 0

/-- The extractor-dispatch chain of `parse_file` (the `elif` ladder on
the detected format; XML, KEY_VALUE and UNKNOWN all fall to the
key-value extractor). -/
def dispatch_extract (jdec : String → Option JsonVal) (fmt : LogFormat)
    (lines : List String) : Fields × Option JsonVal × Option JsonVal :=
  match fmt with
  | .JSON => parse_json jdec lines
  | .CEF =>
    let r := parse_cef lines
    (r.1, r.2.1.map .jstr, r.2.2.map .jstr)
  | .LEEF =>
    let r := parse_leef lines
    (r.1, r.2.1.map .jstr, r.2.2.map .jstr)
  | .CSV => (parse_csv lines, none, none)
  | .SYSLOG => (parse_syslog lines, none, none)
  | _ => (parse_key_value lines, none, none)

/-- `LogParser.parse_file(file_content, filename)`, modelled from the
decoded text onward (`bytes.decode(..., errors='ignore')` is total, and
every string is the decode of its own encoding). -/
def parse_file (jdec : String → Option JsonVal) (content : String)
    (filename : String) : ParsedLog :=
  let lines := ((pySplitChar '\n' content).map pyStrip).filter (· != "")
  if lines.isEmpty then
    { format := .UNKNOWN, fields := [], sample_events := [], confidence := 0 }
  else
    let fc := detect_format jdec lines filename
    let fvp := dispatch_extract jdec fc.1 lines
    { format := fc.1, fields := fvp.1, sample_events := lines.take 5,
      vendor := fvp.2.1, product := fvp.2.2, confidence := fc.2 }

/-! ### `_parse_mapping_result`

The table is located with
`re.search(r'\|\s*Raw Field\s*\|.*?\n\|[-\s|]+\n((?:\|.*?\n)+)', text)`.
`.` does not cross newlines, so `.*?\n` scans to the first newline; the
separator class `[-\s|]+` is greedy and backtracks to end just before a
newline; the row group `(?:\|.*?\n)+` is greedy and final. -/

/-- The separator character class `[-\s|]`. -/
def isTableSep (c : Char) : Bool :=
  c = '-' || c = '|' || isPyWs c

/-- One `\|.*?\n` row: a pipe, everything to the first newline, the
newline included. -/
def tableLine : List Char → Option (List Char × List Char)
  | '|' :: rest =>
    let (body, r) := takeRun (· != '\n') rest
    (match r with
     | '\n' :: r' => some ('|' :: body ++ ['\n'], r')
     | _ => none)
  | _ => none

/-- Greedy `(?:\|.*?\n)+` (may be empty; the caller requires one row). -/
def tableLinesAux : Nat → List Char → List Char
  | 0, _ => []
  | fuel + 1, l =>
    match tableLine l with
    | some (ln, r) => ln ++ tableLinesAux fuel r
    | none => []

/-- Try ending the separator run after `j` class characters: a newline
must follow, then at least one row. -/
def tableTrySep (l : List Char) (j : Nat) : Option (List Char) :=
  match l.drop j with
  | '\n' :: r =>
    let content := tableLinesAux r.length r
    if content.isEmpty then none else some content
  | _ => none

/-- Backtrack the greedy `[-\s|]+` from the longest run down (at least
one character). -/
def tableSepSearch (l : List Char) : Nat → Option (List Char)
  | 0 => none
  | j + 1 =>
    match tableTrySep l (j + 1) with
    | some c => some c
    | none => tableSepSearch l j

/-- The table pattern anchored at the current position; the row-group
capture on success. -/
def tableMatchAt (l : List Char) : Option (List Char) :=
  match l with
  | '|' :: r0 =>
    let (_, r1) := takeRun isPyWs r0
    if startsWithL "Raw Field".data r1 then
      let (_, r3) := takeRun isPyWs (r1.drop 9)
      match r3 with
      | '|' :: r4 =>
        let (_, r5) := takeRun (· != '\n') r4
        (match r5 with
         | '\n' :: '|' :: r7 => tableSepSearch r7 (takeRun isTableSep r7).1.length
         | _ => none)
      | _ => none
    else none
  | _ => none

/-- `re.search` of the table pattern. -/
def tableSearch : List Char → Option (List Char)
  | [] => none
  | c :: rest =>
    match tableMatchAt (c :: rest) with
    | some g => some g
    | none => tableSearch rest

structure FieldMapping where
  raw_field : String
  cim_field : String
  transformation : String
  field_flag : String
  requirement : String
  notes : String
deriving DecidableEq, Repr

/-- `[p.strip() for p in line.split('|')[1:-1]]`. -/
def rowCells (line : String) : List String :=
  (((pySplitChar '|' line).drop 1).dropLast).map pyStrip

/-- The per-row branch of `_parse_mapping_result`: six or more cells use
the fixed column order; exactly five use the legacy shape with
`field_flag` inferred from the lowercased transformation cell; fewer
than five produce nothing. -/
def rowToMapping (line : String) : Option FieldMapping :=
  let parts := rowCells line
  if 5 ≤ parts.length then
    if 6 ≤ parts.length then
      some { raw_field := parts.getD 0 "", cim_field := parts.getD 1 "",
             transformation := parts.getD 2 "", field_flag := parts.getD 3 "",
             requirement := parts.getD 4 "", notes := parts.getD 5 "" }
    else
      some { raw_field := parts.getD 0 "", cim_field := parts.getD 1 "",
             transformation := parts.getD 2 "",
             field_flag :=
               if pyLower (parts.getD 2 "") == "alias" then "extracted"
               else "calculated",
             requirement := parts.getD 3 "", notes := parts.getD 4 "" }
  else none

/-- `_parse_mapping_result(mapping_text)`. -/
def parse_mapping_result (mapping_text : String) : List FieldMapping :=
  if mapping_text == "" then []
  else
    match tableSearch mapping_text.data with
    | none => []
    | some content =>
      (pySplitChar '\n' (pyStrip ⟨content⟩)).filterMap rowToMapping

/-! ### `_extract_tags`: `re.search(r'## Required Tags:\s*\n((?:- .+\n?)+)')` -/

/-- Greedy `(?:- .+\n?)+` (may be empty; the caller requires one item). -/
def tagLinesAux : Nat → List Char → List Char
  | 0, _ => []
  | fuel + 1, l =>
    if startsWithL "- ".data l then
      let (body, r) := takeRun (· != '\n') (l.drop 2)
      if body.isEmpty then []
      else
        match r with
        | '\n' :: r' => '-' :: ' ' :: body ++ '\n' :: tagLinesAux fuel r'
        | _ => '-' :: ' ' :: body
    else []

/-- Try ending the `\s*` run after `j` characters: a newline must
follow, then at least one `- ` item. -/
def tagsTrySep (l : List Char) (j : Nat) : Option (List Char) :=
  match l.drop j with
  | '\n' :: r =>
    let content := tagLinesAux r.length r
    if content.isEmpty then none else some content
  | _ => none

/-- Backtrack the greedy `\s*` from the longest run down to zero. -/
def tagsSepSearch (l : List Char) : Nat → Option (List Char)
  | 0 => tagsTrySep l 0
  | j + 1 =>
    match tagsTrySep l (j + 1) with
    | some c => some c
    | none => tagsSepSearch l j

/-- The tags pattern anchored at the current position. -/
def tagsMatchAt (l : List Char) : Option (List Char) :=
  if startsWithL "## Required Tags:".data l then
    let r0 := l.drop 17
    tagsSepSearch r0 (takeRun isPyWs r0).1.length
  else none

/-- `re.search` of the tags pattern. -/
def tagsSearch : List Char → Option (List Char)
  | [] => none
  | c :: rest =>
    match tagsMatchAt (c :: rest) with
    | some g => some g
    | none => tagsSearch rest

/-- `_extract_tags(mapping_text)`. -/
def extract_tags (mapping_text : String) : List String :=
  if mapping_text == "" then []
  else
    match tagsSearch mapping_text.data with
    | none => []
    | some content =>
      (pySplitChar '\n' (pyStrip ⟨content⟩)).map
        (fun line => pyStrip (pyStripSet ['-', ' '] line))

/-! ### `_extract_eval_expressions`

`re.search(r'## Calculated Fields.*?```\s*\n(.*?)```', text, DOTALL)`,
then a line-by-line scan for `EVAL-(\w+)\s*=\s*(.+)`. -/

/-- Lazy `(.*?)` up to the first closing fence. -/
def closeFence : List Char → Option (List Char)
  | [] => none
  | c :: rest =>
    if startsWithL "```".data (c :: rest) then some []
    else (closeFence rest).map (c :: ·)

/-- Try ending the `\s*` run after `j` characters: a newline must
follow, then a closed fence. -/
def calcTrySep (l : List Char) (j : Nat) : Option (List Char) :=
  match l.drop j with
  | '\n' :: r => closeFence r
  | _ => none

/-- Backtrack the greedy `\s*` from the longest run down to zero. -/
def calcSepSearch (l : List Char) : Nat → Option (List Char)
  | 0 => calcTrySep l 0
  | j + 1 =>
    match calcTrySep l (j + 1) with
    | some c => some c
    | none => calcSepSearch l j

/-- Lazy `.*?` (DOTALL) to an opening fence whose continuation matches;
tried at every successive position. -/
def calcFenceSearch : List Char → Option (List Char)
  | [] => none
  | c :: rest =>
    if startsWithL "```".data (c :: rest) then
      let after := ((c :: rest).drop 3)
      match calcSepSearch after (takeRun isPyWs after).1.length with
      | some g => some g
      | none => calcFenceSearch rest
    else calcFenceSearch rest

/-- The calculated-fields pattern anchored at the current position. -/
def calcMatchAt (l : List Char) : Option (List Char) :=
  if startsWithL "## Calculated Fields".data l then calcFenceSearch (l.drop 20)
  else none

/-- `re.search` of the calculated-fields pattern. -/
def calcSearch : List Char → Option (List Char)
  | [] => none
  | c :: rest =>
    match calcMatchAt (c :: rest) with
    | some g => some g
    | none => calcSearch rest

/-- Greedy `\s*(.+)` after the `=`: all remaining characters, giving one
whitespace character back when everything left is whitespace. -/
def evalRhsSearch (l : List Char) : Nat → Option (List Char)
  | 0 => if l.isEmpty then none else some l
  | j + 1 => if (l.drop (j + 1)).isEmpty then evalRhsSearch l j else some (l.drop (j + 1))

/-- `re.match(r'EVAL-(\w+)\s*=\s*(.+)', line)`. -/
def evalLineMatch (l : List Char) : Option (String × String) :=
  if startsWithL "EVAL-".data l then
    let (w, r1) := takeRun isWordChar (l.drop 5)
    if w.isEmpty then none
    else
      let (_, r2) := takeRun isPyWs r1
      match r2 with
      | '=' :: r3 =>
        (evalRhsSearch r3 (takeRun isPyWs r3).1.length).map
          (fun rhs => (⟨w⟩, ⟨rhs⟩))
      | _ => none
  else none

/-- Python dict assignment: replace in place or append. -/
def dictInsert (d : List (String × String)) (k v : String) : List (String × String) :=
  if d.any (fun p => p.1 == k) then d.map (fun p => if p.1 == k then (p.1, v) else p)
  else d ++ [(k, v)]

/-- `dict.get(k, default)`. -/
def dictGetD (d : List (String × String)) (k deflt : String) : String :=
  match d.find? (fun p => p.1 == k) with
  | some p => p.2
  | none => deflt

/-- `_extract_eval_expressions(mapping_text)`. -/
def extract_eval_expressions (mapping_text : String) : List (String × String) :=
  if mapping_text == "" then []
  else
    match calcSearch mapping_text.data with
    | none => []
    | some content =>
      (pySplitChar '\n' (pyStrip ⟨content⟩)).foldl
        (fun d line =>
          let ls := pyStrip line
          if startsWithL "EVAL-".data ls.data then
            match evalLineMatch ls.data with
            | some kv => dictInsert d kv.1 kv.2
            | none => d
          else d) []

/-! ### The artifact renderers -/

/-- `', '.join(xs)` -/
def joinComma (xs : List String) : String :=
  String.intercalate ", " xs

/-- `data_model.lower().replace(' ', '_') if data_model else 'unknown'` -/
def dmSafe (data_model : String) : String :=
  if data_model != "" then
    ⟨(pyLower data_model).data.map (fun c => if c = ' ' then '_' else c)⟩
  else "unknown"

/-- Membership test of the gui field-alias section (the `or` of the
transformation and field-flag checks, as in the source). -/
def guiAliasCond (m : FieldMapping) : Bool :=
  pyLower m.transformation == "alias" || pyLower m.field_flag == "extracted"

/-- Membership test of the gui calculated-field section. -/
def guiCalcCond (m : FieldMapping) : Bool :=
  pyLower m.transformation == "eval" || pyLower m.field_flag == "calculated"

/-- Membership test of the props.conf FIELDALIAS section. -/
def propsAliasCond (m : FieldMapping) : Bool :=
  pyLower m.field_flag == "extracted" || pyLower m.transformation == "alias"

/-- Membership test of the props.conf EVAL section. -/
def propsCalcCond (m : FieldMapping) : Bool :=
  pyLower m.field_flag == "calculated" || pyLower m.transformation == "eval"

/-- One numbered field-alias walkthrough block. -/
def guiAliasBlock (sourcetype : String) (m : FieldMapping) (n : Nat) : String :=
  "### Field Alias " ++ toString n ++ ": " ++ m.cim_field ++
  "\n1. Click **New Field Alias**\n2. Configure:\n   - **Name**: `" ++
  sourcetype ++ "_" ++ m.cim_field ++ "_alias`\n   - **Apply to**: `sourcetype` = `" ++
  sourcetype ++ "`\n   - **Field Alias**: `" ++ m.raw_field ++ " AS " ++
  m.cim_field ++ "`\n3. Click **Save**\n\n"

/-- The field-alias loop with its running counter. -/
def guiAliasLoop (sourcetype : String) : List FieldMapping → Nat → String × Nat
  | [], n => ("", n)
  | m :: rest, n =>
    if guiAliasCond m then
      let r := guiAliasLoop sourcetype rest (n + 1)
      (guiAliasBlock sourcetype m n ++ r.1, r.2)
    else guiAliasLoop sourcetype rest n

/-- One numbered calculated-field walkthrough block. -/
def guiCalcBlock (sourcetype : String) (m : FieldMapping) (expr : String) (n : Nat) : String :=
  "### Calculated Field " ++ toString n ++ ": " ++ m.cim_field ++
  "\n1. Click **New Calculated Field**\n2. Configure:\n   - **Name**: `" ++
  sourcetype ++ "_" ++ m.cim_field ++ "_calc`\n   - **Apply to**: `sourcetype` = `" ++
  sourcetype ++ "`\n   - **Eval Expression**: `" ++ expr ++
  "`\n3. Click **Save**\n\n"

/-- The calculated-field loop with its running counter; the expression
falls back to a `coalesce(raw_field, null)` placeholder. -/
def guiCalcLoop (sourcetype : String) (evalExprs : List (String × String)) :
    List FieldMapping → Nat → String × Nat
  | [], n => ("", n)
  | m :: rest, n =>
    if guiCalcCond m then
      let expr := dictGetD evalExprs m.cim_field ("coalesce(" ++ m.raw_field ++ ", null)")
      let r := guiCalcLoop sourcetype evalExprs rest (n + 1)
      (guiCalcBlock sourcetype m expr n ++ r.1, r.2)
    else guiCalcLoop sourcetype evalExprs rest n

/-- `_generate_gui_instructions`. -/
def generate_gui_instructions (mappings : List FieldMapping)
    (sourcetype data_model dataset : String) (tags : List String)
    (eval_expressions : List (String × String)) : String :=
  let header :=
    "# Splunk Cloud GUI Configuration Instructions\n\n## Overview\n- **Data Model**: " ++
    data_model ++ "\n- **Dataset**: " ++ dataset ++ "\n- **Sourcetype**: `" ++
    sourcetype ++ "`\n- **Tags**: " ++ (if tags.isEmpty then "N/A" else joinComma tags) ++
    "\n\n---\n\n## Step 1: Create Event Type\n\n1. Navigate to **Settings → Event Types**\n2. Click **New Event Type**\n3. Configure:\n   - **Name**: `" ++
    sourcetype ++ "_" ++ dmSafe data_model ++ "`\n   - **Search String**: `sourcetype=" ++
    sourcetype ++ "`\n   - **Tags**: " ++
    (if tags.isEmpty then "authentication" else joinComma tags) ++
    "\n4. Click **Save**\n\n---\n\n## Step 2: Configure Field Aliases (EXTRACTED fields)\n\nNavigate to **Settings → Fields → Field Aliases**\n\n"
  let ar := guiAliasLoop sourcetype mappings 1
  let s1 := header ++ ar.1 ++
    (if ar.2 = 1 then "_No field aliases needed for this log source._\n\n" else "")
  let s2 := s1 ++
    "---\n\n## Step 3: Configure Calculated Fields (CALCULATED fields)\n\nNavigate to **Settings → Fields → Calculated Fields**\n\n"
  let cr := guiCalcLoop sourcetype eval_expressions mappings 1
  let s3 := s2 ++ cr.1 ++
    (if cr.2 = 1 then "_No calculated fields needed for this log source._\n\n" else "")
  let cimFieldsStr :=
    if mappings.isEmpty then "field1, field2"
    else joinComma ((mappings.take 10).map (·.cim_field))
  let s4 := s3 ++
    "---\n\n## Step 4: Validate Configuration\n\nRun the validation search in Splunk:\n\n```spl\nindex=* sourcetype=" ++
    sourcetype ++ "\n| head 100\n| table _time, " ++ cimFieldsStr ++
    "\n```\n\n---\n\n## Step 5: Test Data Model Compliance\n\n```spl\n| datamodel " ++
    data_model ++ " " ++ dataset ++ " search\n| search sourcetype=" ++ sourcetype ++
    "\n| head 100\n```\n\n---\n\n## Field Mapping Summary\n\n| CIM Field | Type | Raw Field | Configuration Method |\n|-----------|------|-----------|---------------------|\n"
  s4 ++ String.join (mappings.map (fun m =>
    "| " ++ m.cim_field ++ " | " ++ m.field_flag ++ " | " ++ m.raw_field ++ " | " ++
    (if pyLower m.field_flag == "extracted" then "Field Alias"
     else "Calculated Field (EVAL)") ++ " |\n"))

/-- `_generate_props_conf`. -/
def generate_props_conf (mappings : List FieldMapping)
    (sourcetype data_model dataset : String)
    (eval_expressions : List (String × String)) : String :=
  let header :=
    "# props.conf configuration for " ++ sourcetype ++ "\n# Data Model: " ++
    data_model ++ " > " ++ dataset ++ "\n\n[" ++ sourcetype ++
    "]\n\n# ============================================\n# FIELD ALIASES (extracted fields)\n# ============================================\n"
  let aliases := mappings.filter propsAliasCond
  let s1 := header ++ String.join (aliases.map (fun m =>
      "FIELDALIAS-" ++ m.cim_field ++ " = " ++ m.raw_field ++ " AS " ++ m.cim_field ++ "\n")) ++
    (if aliases.isEmpty then "# No field aliases needed\n" else "")
  let s2 := s1 ++
    "\n# ============================================\n# CALCULATED FIELDS (calculated fields)\n# ============================================\n"
  let calcs := mappings.filter propsCalcCond
  s2 ++ String.join (calcs.map (fun m =>
      "EVAL-" ++ m.cim_field ++ " = " ++
      dictGetD eval_expressions m.cim_field ("coalesce(" ++ m.raw_field ++ ", null)") ++ "\n")) ++
    (if calcs.isEmpty then "# No calculated fields needed\n" else "")

/-- `_generate_transforms_conf`. -/
def generate_transforms_conf (mappings : List FieldMapping) (sourcetype : String) : String :=
  if (mappings.filter (fun m => pyLower m.transformation == "lookup")).isEmpty then
    "# No transforms.conf needed - no lookup transformations required"
  else
    "# transforms.conf for " ++ sourcetype ++ "\n\n[" ++ sourcetype ++
    "_lookup]\nfilename = " ++ sourcetype ++ "_lookup.csv\n"

/-- `_generate_eventtypes_conf`. -/
def generate_eventtypes_conf (sourcetype data_model : String) : String :=
  "# eventtypes.conf for " ++ sourcetype ++ "\n\n[" ++ sourcetype ++ "_" ++
  dmSafe data_model ++ "]\nsearch = sourcetype=" ++ sourcetype ++ "\n"

/-- `_generate_tags_conf`. -/
def generate_tags_conf (sourcetype data_model : String) (tags : List String) : String :=
  let header :=
    "# tags.conf for " ++ sourcetype ++ "\n\n[eventtype=" ++ sourcetype ++ "_" ++
    dmSafe data_model ++ "]\n"
  if tags.isEmpty then header ++ "# Add appropriate tags here\n"
  else header ++ String.join (tags.map (fun t => t ++ " = enabled\n"))

/-- `_generate_validation_spl`. -/
def generate_validation_spl (sourcetype data_model dataset : String)
    (mappings : List FieldMapping) : String :=
  let cimFields :=
    if mappings.isEmpty then "action, src, dest, user"
    else joinComma ((mappings.take 15).map (·.cim_field))
  let firstField := match mappings with | [] => "action" | m :: _ => m.cim_field
  let calculatedFields :=
    (mappings.filter (fun m => pyLower m.field_flag == "calculated")).map (·.cim_field)
  let extractedFields :=
    (mappings.filter (fun m => pyLower m.field_flag == "extracted")).map (·.cim_field)
  let calcFieldsStr :=
    if calculatedFields.isEmpty then "action, src, dest"
    else joinComma (calculatedFields.take 10)
  let extFieldsStr :=
    if extractedFields.isEmpty then "src_port, dest_port"
    else joinComma (extractedFields.take 10)
  "# Validation SPL Queries for " ++ sourcetype ++
  "\n\n## 1. Field Population Check\n```spl\nindex=* sourcetype=" ++ sourcetype ++
  "\n| head 1000\n| table _time, " ++ cimFields ++ "\n| stats count by " ++ firstField ++
  "\n```\n\n## 2. Validate CALCULATED Fields\n```spl\nindex=* sourcetype=" ++ sourcetype ++
  "\n| head 100\n| table _time, " ++ calcFieldsStr ++
  "\n| where isnotnull(action) OR isnotnull(src)\n```\n\n## 3. Validate EXTRACTED Fields\n```spl\nindex=* sourcetype=" ++
  sourcetype ++ "\n| head 100\n| table _time, " ++ extFieldsStr ++
  "\n```\n\n## 4. Data Model Validation\n```spl\n| datamodel " ++ data_model ++ " " ++
  dataset ++ " search\n| search sourcetype=" ++ sourcetype ++
  "\n| head 100\n| table _time, " ++ cimFields ++
  "\n```\n\n## 5. Tag Verification\n```spl\nindex=* sourcetype=" ++ sourcetype ++
  "\n| head 100\n| eval has_tags = if(tag!=\"\", \"yes\", \"no\")\n| stats count by has_tags\n```\n\n## 6. CIM Compliance Check\n```spl\n| datamodel " ++
  data_model ++ " " ++ dataset ++ " search\n| search sourcetype=" ++ sourcetype ++
  "\n| eval compliance_status = case(\n    isnull(action), \"FAIL: action field missing\",\n    isnull(src), \"FAIL: src field missing\",\n    isnull(dest), \"FAIL: dest field missing\",\n    1=1, \"PASS\"\n)\n| stats count by compliance_status\n```\n\n## Field Type Summary\n**Calculated Fields (EVAL required):** " ++
  (if calculatedFields.isEmpty then "None detected" else joinComma calculatedFields) ++
  "\n**Extracted Fields (FIELDALIAS):** " ++
  (if extractedFields.isEmpty then "None detected" else joinComma extractedFields) ++ "\n"

/-- The mapping-result dictionary consumed by `generate_output`,
modelled as the three entries it reads, with the `.get` defaults
(`''`, `'Unknown'`, `'Unknown'`) already applied. -/
structure MappingResult where
  mapping : String
  data_model : String
  dataset : String

/-- `OutputGenerator(deployment_mode).generate_output(mapping_result,
sourcetype)`: the ordered artifact dictionary. -/
def generate_output (deployment_mode : String) (mr : MappingResult)
    (sourcetype : String) : List (String × String) :=
  let mode := pyLower deployment_mode
  let mappings := parse_mapping_result mr.mapping
  let tags := extract_tags mr.mapping
  let evalExprs := extract_eval_expressions mr.mapping
  (if mode == "cloud" || mode == "both" then
    [("gui_instructions",
      generate_gui_instructions mappings sourcetype mr.data_model mr.dataset tags evalExprs)]
   else []) ++
  (if mode == "enterprise" || mode == "both" then
    [("props_conf",
      generate_props_conf mappings sourcetype mr.data_model mr.dataset evalExprs),
     ("transforms_conf", generate_transforms_conf mappings sourcetype),
     ("eventtypes_conf", generate_eventtypes_conf sourcetype mr.data_model),
     ("tags_conf", generate_tags_conf sourcetype mr.data_model tags)]
   else []) ++
  [("validation_spl", generate_validation_spl sourcetype mr.data_model mr.dataset mappings)]

/-! ### `_repair_mapping`

`re.sub(r'^\|\s*([^|]+?)\s*\|', replace_row, mapping_text, flags=re.MULTILINE)`:
at each line start beginning with a pipe, the first cell is captured with
surrounding whitespace trimmed by the greedy/lazy interplay; a cell that
is not a known field name but is a known observed value is swapped for
its field name inside the matched region only. -/

/-- `str(val).strip('"').strip("'")` -/
def stripQuotesSeq (s : String) : String :=
  pyStripSet ['\''] (pyStripSet ['"'] s)

/-- The reverse value-to-field-name index: every observed value,
quote-stripped, of length above one; later fields overwrite earlier ones
on a shared value. -/
def valueToField (fields : Fields) : List (String × String) :=
  fields.foldl (fun d p =>
    p.2.foldl (fun d v =>
      let vstr := stripQuotesSeq v
      if 1 < vstr.length then dictInsert d vstr p.1 else d) d) []

/-- `\s*\|` after the lazy group: the maximal whitespace run must be
followed by a pipe; returns the number of characters consumed. -/
def cellClose (l : List Char) : Option Nat :=
  let (ws, r) := takeRun isPyWs l
  match r with
  | '|' :: _ => some (ws.length + 1)
  | _ => none

/-- The lazy `([^|]+?)\s*\|`: the shortest non-empty pipe-free group
whose continuation closes; returns the group and the characters
consumed (closing pipe included). -/
def cellGroup : List Char → Option (List Char × Nat)
  | [] => none
  | c :: rest =>
    if c = '|' then none
    else
      match cellClose rest with
      | some n => some ([c], 1 + n)
      | none =>
        match cellGroup rest with
        | some gn => some (c :: gn.1, 1 + gn.2)
        | none => none

/-- Skip `k` whitespace characters of the greedy leading `\s*`, then
match the group. -/
def tryCellAt (r : List Char) (k : Nat) : Option (List Char × Nat) :=
  (cellGroup (r.drop k)).map (fun gn => (gn.1, k + gn.2))

/-- Backtrack the greedy leading `\s*` from the longest run down. -/
def cellSearch (r : List Char) : Nat → Option (List Char × Nat)
  | 0 => tryCellAt r 0
  | k + 1 =>
    match tryCellAt r (k + 1) with
    | some g => some g
    | none => cellSearch r k

/-- `^\|\s*([^|]+?)\s*\|` at a line start: the cell text and the length
of the whole matched region. -/
def firstCellMatch (l : List Char) : Option (List Char × Nat) :=
  match l with
  | '|' :: r =>
    (cellSearch r (takeRun isPyWs r).1.length).map (fun gn => (gn.1, 1 + gn.2))
  | _ => none

/-- `str.replace(needle, repl, 1)`. -/
def replaceFirstSub (needle repl : List Char) : List Char → List Char
  | [] => if needle.isEmpty then repl else []
  | c :: rest =>
    if needle.isPrefixOf (c :: rest) then repl ++ (c :: rest).drop needle.length
    else c :: replaceFirstSub needle repl rest

/-- The `replace_row` callback: the matched region, possibly with its
first cell swapped, and the recorded repair notes. -/
def replace_row (plogFields : Fields) (v2f : List (String × String))
    (region : List Char) (group : List Char) : List Char × List String :=
  let rawContent : String := ⟨pyStripL group⟩
  if hasKey plogFields rawContent then (region, [])
  else
    let clean := stripQuotesSeq rawContent
    match v2f.find? (fun p => p.1 == clean) with
    | some p =>
      (replaceFirstSub rawContent.data p.2.data region,
       ["Repaired: '" ++ rawContent ++ "' -> '" ++ p.2 ++ "'"])
    | none => (region, [])

/-- The `re.sub` scan: candidate positions are line starts; on a match
the region is rewritten and scanning resumes after it. -/
def repairAux (plogFields : Fields) (v2f : List (String × String)) :
    Nat → List Char → Bool → List Char × List String
  | 0, l, _ => (l, [])
  | _ + 1, [], _ => ([], [])
  | fuel + 1, c :: rest, atStart =>
    if atStart ∧ c = '|' then
      match firstCellMatch (c :: rest) with
      | some gn =>
        let region := (c :: rest).take gn.2
        let rn := replace_row plogFields v2f region gn.1
        let out := repairAux plogFields v2f fuel ((c :: rest).drop gn.2) false
        (rn.1 ++ out.1, rn.2 ++ out.2)
      | none =>
        let out := repairAux plogFields v2f fuel rest false
        (c :: out.1, out.2)
    else
      let out := repairAux plogFields v2f fuel rest (c = '\n')
      (c :: out.1, out.2)

/-- `_repair_mapping(mapping_text, parsed_log)` (only the field table of
the parsed log is consulted): the repaired text and the repair notes. -/
def repair_mapping (mapping_text : String) (fields : Fields) : String × List String :=
  let v2f := valueToField fields
  let r := repairAux fields v2f mapping_text.data.length mapping_text.data true
  (⟨r.1⟩, r.2)

deriving instance DecidableEq for JsonVal
deriving instance DecidableEq for ParsedLog

/-! ## Invariants of the field table -/

/-- The keys of the field table are pairwise distinct (it models a
Python dict). -/
def keysNodup (fs : Fields) : Prop :=
  (fs.map Prod.fst).Nodup

/-- Every key present maps to a non-empty value list. -/
def allNonempty (fs : Fields) : Prop :=
  ∀ p ∈ fs, p.2 ≠ []

instance (fs : Fields) : Decidable (keysNodup fs) := by
  unfold keysNodup; infer_instance

instance (fs : Fields) : Decidable (allNonempty fs) := by
  unfold allNonempty; infer_instance


theorem hasKey_false_not_mem {fs : Fields} {k : String} (hk : hasKey fs k = false) :
    k ∉ fs.map Prod.fst := by
  intro hm
  obtain ⟨p, hp, he⟩ := List.mem_map.mp hm
  have : hasKey fs k = true := by
    unfold hasKey
    exact List.any_eq_true.mpr ⟨p, hp, by simp [he]⟩
  simp [this] at hk

theorem map_fst_update (fs : Fields) (f : String × List String → List String) (k : String) :
    (fs.map (fun p => if p.1 == k then (p.1, f p) else p)).map Prod.fst =
      fs.map Prod.fst := by
  rw [List.map_map]
  apply List.map_congr_left
  intro p _
  by_cases hp : p.1 = k <;> simp [hp]

theorem keysNodup_fieldsAppend (fs : Fields) (k v : String) (h : keysNodup fs) :
    keysNodup (fieldsAppend fs k v) := by
  unfold fieldsAppend
  split
  · unfold keysNodup
    rw [map_fst_update fs (fun p => p.2 ++ [v]) k]
    exact h
  · next hk =>
    unfold keysNodup at h ⊢
    rw [List.map_append, List.nodup_append]
    refine ⟨h, by simp, ?_⟩
    simp only [List.map_cons, List.map_nil, List.disjoint_singleton]
    exact hasKey_false_not_mem (Bool.of_not_eq_true hk)

theorem keysNodup_fieldsInitKey (fs : Fields) (k : String) (h : keysNodup fs) :
    keysNodup (fieldsInitKey fs k) := by
  unfold fieldsInitKey
  split
  · unfold keysNodup
    rw [map_fst_update fs (fun _ => []) k]
    exact h
  · next hk =>
    unfold keysNodup at h ⊢
    rw [List.map_append, List.nodup_append]
    refine ⟨h, by simp, ?_⟩
    simp only [List.map_cons, List.map_nil, List.disjoint_singleton]
    exact hasKey_false_not_mem (Bool.of_not_eq_true hk)

theorem allNonempty_fieldsAppend (fs : Fields) (k v : String) (h : allNonempty fs) :
    allNonempty (fieldsAppend fs k v) := by
  unfold fieldsAppend
  split
  · intro p hp
    obtain ⟨q, hq, rfl⟩ := List.mem_map.mp hp
    by_cases hqk : q.1 = k
    · simp [hqk]
    · simpa [hqk] using h q hq
  · intro p hp
    rcases List.mem_append.mp hp with hp | hp
    · exact h p hp
    · simp only [List.mem_singleton] at hp
      subst hp
      simp

theorem foldl_inv {β : Type} {α : Type} (P : β → Prop) (f : β → α → β)
    (hf : ∀ b a, P b → P (f b a)) :
    ∀ (l : List α) (init : β), P init → P (l.foldl f init) := by
  intro l
  induction l with
  | nil => intro init h; exact h
  | cons a l ih => intro init h; exact ih (f init a) (hf init a h)

theorem keysNodup_mergeKv (fs : Fields) (l : List Char) (h : keysNodup fs) :
    keysNodup (mergeKv fs l) := by
  unfold mergeKv
  exact foldl_inv keysNodup _ (fun fs kv h => keysNodup_fieldsAppend fs _ _ h) _ fs h

theorem allNonempty_mergeKv (fs : Fields) (l : List Char) (h : allNonempty fs) :
    allNonempty (mergeKv fs l) := by
  unfold mergeKv
  exact foldl_inv allNonempty _ (fun fs kv h => allNonempty_fieldsAppend fs _ _ h) _ fs h

mutual
theorem extract_fields_recursive_inv (obj : JsonVal) :
    ∀ (fs : Fields) (pre : String), keysNodup fs ∧ allNonempty fs →
      keysNodup (extract_fields_recursive obj fs pre) ∧
        allNonempty (extract_fields_recursive obj fs pre) := by
  intro fs pre h
  cases obj with
  | jobj entries =>
    simpa [extract_fields_recursive] using extractObjEntries_inv entries fs pre h
  | jarr items =>
    simpa [extract_fields_recursive] using extractArrItems_inv items fs pre h
  | jnull => simpa [extract_fields_recursive] using h
  | jbool b => simpa [extract_fields_recursive] using h
  | jint n => simpa [extract_fields_recursive] using h
  | jstr s => simpa [extract_fields_recursive] using h
theorem extractObjEntries_inv (entries : JsonObj) :
    ∀ (fs : Fields) (pre : String), keysNodup fs ∧ allNonempty fs →
      keysNodup (extractObjEntries entries fs pre) ∧
        allNonempty (extractObjEntries entries fs pre) := by
  intro fs pre h
  cases entries with
  | onil => simpa [extractObjEntries] using h
  | ocons k v tl =>
    have hstep :
        ∀ fs' : Fields, keysNodup fs' ∧ allNonempty fs' →
          keysNodup (extractObjEntries tl fs' pre) ∧
            allNonempty (extractObjEntries tl fs' pre) :=
      fun fs' h' => extractObjEntries_inv tl fs' pre h'
    cases v with
    | jobj es =>
      simp only [extractObjEntries]
      exact hstep _ (extract_fields_recursive_inv (.jobj es) fs _ h)
    | jarr its =>
      simp only [extractObjEntries]
      exact hstep _ (extract_fields_recursive_inv (.jarr its) fs _ h)
    | jnull =>
      simp only [extractObjEntries]
      exact hstep _ ⟨keysNodup_fieldsAppend _ _ _ h.1, allNonempty_fieldsAppend _ _ _ h.2⟩
    | jbool b =>
      simp only [extractObjEntries]
      exact hstep _ ⟨keysNodup_fieldsAppend _ _ _ h.1, allNonempty_fieldsAppend _ _ _ h.2⟩
    | jint n =>
      simp only [extractObjEntries]
      exact hstep _ ⟨keysNodup_fieldsAppend _ _ _ h.1, allNonempty_fieldsAppend _ _ _ h.2⟩
    | jstr s =>
      simp only [extractObjEntries]
      exact hstep _ ⟨keysNodup_fieldsAppend _ _ _ h.1, allNonempty_fieldsAppend _ _ _ h.2⟩
theorem extractArrItems_inv (items : JsonArr) :
    ∀ (fs : Fields) (pre : String), keysNodup fs ∧ allNonempty fs →
      keysNodup (extractArrItems items fs pre) ∧
        allNonempty (extractArrItems items fs pre) := by
  intro fs pre h
  cases items with
  | anil => simpa [extractArrItems] using h
  | acons hd tl =>
    simp only [extractArrItems]
    exact extractArrItems_inv tl _ pre (extract_fields_recursive_inv hd fs pre h)
end

theorem parse_json_events_fields_inv (evs : List (Option JsonVal)) :
    ∀ (fs : Fields) (v p : Option JsonVal), keysNodup fs ∧ allNonempty fs →
      keysNodup (parse_json_events evs fs v p).1 ∧
        allNonempty (parse_json_events evs fs v p).1 := by
  induction evs with
  | nil => intro fs v p h; simpa [parse_json_events] using h
  | cons e rest ih =>
    intro fs v p h
    cases e with
    | none => simpa [parse_json_events] using ih fs v p h
    | some ev =>
      simp only [parse_json_events]
      exact ih _ _ _ (extract_fields_recursive_inv ev fs "" h)

theorem parse_json_inv (jdec : String → Option JsonVal) (lines : List String) :
    keysNodup (parse_json jdec lines).1 ∧ allNonempty (parse_json jdec lines).1 :=
  parse_json_events_fields_inv _ [] none none ⟨by simp [keysNodup], by simp [allNonempty]⟩

theorem parse_key_value_inv (lines : List String) :
    keysNodup (parse_key_value lines) ∧ allNonempty (parse_key_value lines) := by
  unfold parse_key_value
  refine ⟨?_, ?_⟩
  · exact foldl_inv keysNodup _ (fun fs l h => keysNodup_mergeKv fs _ h) _ []
      (by simp [keysNodup])
  · exact foldl_inv allNonempty _ (fun fs l h => allNonempty_mergeKv fs _ h) _ []
      (by simp [allNonempty])

theorem keysNodup_parse_cef_line (st : Fields × Option String × Option String)
    (line : String) (h : keysNodup st.1) : keysNodup (parse_cef_line st line).1 := by
  unfold parse_cef_line
  cases hc : cefSearch line.data with
  | none => simpa using h
  | some gs =>
    simp only []
    exact keysNodup_mergeKv _ _
      (keysNodup_fieldsAppend _ _ _ (keysNodup_fieldsAppend _ _ _
        (keysNodup_fieldsAppend _ _ _ (keysNodup_fieldsAppend _ _ _
          (keysNodup_fieldsAppend _ _ _ (keysNodup_fieldsAppend _ _ _
            (keysNodup_fieldsAppend _ _ _ h)))))))

theorem keysNodup_parse_cef (lines : List String) : keysNodup (parse_cef lines).1 := by
  unfold parse_cef
  exact foldl_inv (fun st => keysNodup st.1) _
    (fun st l h => keysNodup_parse_cef_line st l h) _ (cefInit, none, none) (by decide)

theorem keysNodup_parse_leef_line (st : Fields × Option String × Option String)
    (line : String) (h : keysNodup st.1) : keysNodup (parse_leef_line st line).1 := by
  unfold parse_leef_line
  cases hc : leefSearch line.data with
  | none => simpa using h
  | some gs =>
    simp only []
    exact keysNodup_mergeKv _ _
      (keysNodup_fieldsAppend _ _ _ (keysNodup_fieldsAppend _ _ _
        (keysNodup_fieldsAppend _ _ _ (keysNodup_fieldsAppend _ _ _ h))))

theorem keysNodup_parse_leef (lines : List String) : keysNodup (parse_leef lines).1 := by
  unfold parse_leef
  exact foldl_inv (fun st => keysNodup st.1) _
    (fun st l h => keysNodup_parse_leef_line st l h) _ (leefInit, none, none) (by decide)

theorem keysNodup_parse_syslog (lines : List String) : keysNodup (parse_syslog lines) := by
  unfold parse_syslog
  refine foldl_inv keysNodup _ (fun fs l h => ?_) _ syslogInit (by decide)
  cases hs : syslogParseLine l.data with
  | none => simpa using h
  | some g =>
    obtain ⟨ts, host, proc, msg⟩ := g
    simp only []
    exact keysNodup_mergeKv _ _
      (keysNodup_fieldsAppend _ _ _ (keysNodup_fieldsAppend _ _ _
        (keysNodup_fieldsAppend _ _ _ (keysNodup_fieldsAppend _ _ _ h))))

theorem keysNodup_parse_csv (lines : List String) : keysNodup (parse_csv lines) := by
  unfold parse_csv
  cases lines with
  | nil => simp [keysNodup]
  | cons l0 rest =>
    simp only []
    refine foldl_inv keysNodup _ (fun fs l h => ?_) _ _ ?_
    · exact foldl_inv keysNodup _ (fun fs vh h => keysNodup_fieldsAppend fs _ _ h) _ fs h
    · exact foldl_inv keysNodup _ (fun fs h hh => keysNodup_fieldsInitKey fs h hh) _ []
        (by simp [keysNodup])

theorem dispatch_keysNodup (jdec : String → Option JsonVal) (fmt : LogFormat)
    (lines : List String) : keysNodup (dispatch_extract jdec fmt lines).1 := by
  cases fmt with
  | JSON => exact (parse_json_inv jdec lines).1
  | CEF => simpa [dispatch_extract] using keysNodup_parse_cef lines
  | LEEF => simpa [dispatch_extract] using keysNodup_parse_leef lines
  | CSV => simpa [dispatch_extract] using keysNodup_parse_csv lines
  | SYSLOG => simpa [dispatch_extract] using keysNodup_parse_syslog lines
  | XML => exact (parse_key_value_inv lines).1
  | KEY_VALUE => exact (parse_key_value_inv lines).1
  | UNKNOWN => exact (parse_key_value_inv lines).1

theorem dispatch_allNonempty (jdec : String → Option JsonVal) (fmt : LogFormat)
    (lines : List String)
    (hf : fmt = LogFormat.JSON ∨ fmt = LogFormat.XML ∨ fmt = LogFormat.KEY_VALUE ∨
      fmt = LogFormat.UNKNOWN) :
    allNonempty (dispatch_extract jdec fmt lines).1 := by
  rcases hf with rfl | rfl | rfl | rfl
  · exact (parse_json_inv jdec lines).2
  · exact (parse_key_value_inv lines).2
  · exact (parse_key_value_inv lines).2
  · exact (parse_key_value_inv lines).2

/-! ## Claim theorems -/

/-- A decoder for closed examples whose first line does not begin with a
brace, so `json.loads` is never consulted by the sniffer. -/
def jdecNone : String → Option JsonVal := fun _ => none

/-- Claim C2, counterexample: on the input `CEF:abc` the sniffer picks
the CEF format (the line contains `CEF:`), no line matches the CEF
regex, and the seven pre-initialised fixed keys stay present with empty
value lists, violating the claimed invariant. -/
theorem C2_counterexample :
    ("cef_version", ([] : List String)) ∈ (parse_file jdecNone "CEF:abc" "").fields ∧
    ¬ allNonempty (parse_file jdecNone "CEF:abc" "").fields := by
  constructor
  · decide
  · decide

/-- Claim C2, amended: for every input, the field-table keys are unique
(it is a Python dict); and every present key maps to a non-empty value
list whenever the parse dispatches to the JSON or key-value extractor
(formats JSON, XML, KEY_VALUE, UNKNOWN).  The CEF/LEEF/SYSLOG extractors
pre-initialise fixed keys and the CSV extractor initialises header keys,
which can remain empty. -/
theorem C2_amended (jdec : String → Option JsonVal) (content filename : String) :
    keysNodup (parse_file jdec content filename).fields ∧
    ((parse_file jdec content filename).format = LogFormat.JSON ∨
      (parse_file jdec content filename).format = LogFormat.XML ∨
      (parse_file jdec content filename).format = LogFormat.KEY_VALUE ∨
      (parse_file jdec content filename).format = LogFormat.UNKNOWN →
      allNonempty (parse_file jdec content filename).fields) := by
  unfold parse_file
  cases he : (((pySplitChar '\n' content).map pyStrip).filter (· != "")).isEmpty with
  | true =>
    constructor
    · simp [he, keysNodup]
    · intro _
      simp [he, allNonempty]
  | false =>
    simp only [he, Bool.false_eq_true, if_false]
    exact ⟨dispatch_keysNodup _ _ _, fun h => dispatch_allNonempty _ _ _ h⟩

/-- Claim C2, witness: a key-value input where the amended claim's
hypothesis holds and both parts apply. -/
theorem C2_amended_witness :
    keysNodup (parse_file jdecNone "a=1 b=2 c=3" "").fields ∧
    allNonempty (parse_file jdecNone "a=1 b=2 c=3" "").fields :=
  ⟨(C2_amended jdecNone "a=1 b=2 c=3" "").1,
   (C2_amended jdecNone "a=1 b=2 c=3" "").2 (by decide)⟩

/-- Claim C1, counterexample: the sniffer's XML rule (line starts with
`<`) precedes its syslog rule, so `<134>Jan 1 00:00:00 host proc: msg`
is classified XML with confidence 0.90, not SYSLOG with 0.85. -/
theorem C1_counterexample :
    detect_format jdecNone ["<134>Jan 1 00:00:00 host proc: msg"] "" =
      (LogFormat.XML, 0.9) ∧
    (LogFormat.XML, (0.9 : ℚ)) ≠ (LogFormat.SYSLOG, (0.85 : ℚ)) := by
  constructor
  · rfl
  · intro h
    exact absurd (congrArg Prod.fst h) (by decide)

/-- Claim C1, amended: the `<priority>`-prefixed sample hits the earlier
XML rule (XML, 0.90); the same line without the priority prefix, which
matches the `Mon D HH:MM:SS` timestamp shape, is classified SYSLOG with
confidence exactly 0.85.  The decoder is arbitrary: neither line starts
with a brace. -/
theorem C1_amended (jdec : String → Option JsonVal) :
    detect_format jdec ["<134>Jan 1 00:00:00 host proc: msg"] "" =
      (LogFormat.XML, 0.9) ∧
    detect_format jdec ["Jan 1 00:00:00 host proc: msg"] "" =
      (LogFormat.SYSLOG, 0.85) := by
  constructor
  · rfl
  · rfl

/-- Claim C3, counterexample: a `.csv` filename alone does not suffice —
`hello` named `log.csv` has no commas, the guarded comma-count check
fails, and the sniffer falls through to UNKNOWN with confidence 0.3. -/
theorem C3_counterexample :
    detect_format jdecNone ["hello"] "log.csv" = (LogFormat.UNKNOWN, 0.3) ∧
    (LogFormat.UNKNOWN, (0.3 : ℚ)) ≠ (LogFormat.CSV, (0.8 : ℚ)) := by
  constructor
  · rfl
  · intro h
    exact absurd (congrArg Prod.fst h) (by decide)

/-- Claim C3, amended: once the JSON/XML/CEF/LEEF rules have failed, the
sniffer classifies CSV with confidence 0.80 exactly when the line's
comma count is at least 3.  The filename hint is redundant (comma count
at least 3 already implies a comma is present) and never suffices on its
own. -/
theorem C3_amended (jdec : String → Option JsonVal) (s : String) (rest : List String)
    (filename : String)
    (h1 : (startsWithL ['{'] (pyStripL s.data) && (jdec s).isSome) = false)
    (h2 : startsWithL ['<'] (pyStripL s.data) = false)
    (h3 : containsSubL "CEF:".data s.data = false)
    (h4 : containsSubL "LEEF:".data s.data = false) :
    detect_format jdec (s :: rest) filename = (LogFormat.CSV, 0.8) ↔
      3 ≤ countChar ',' s.data := by
  unfold detect_format
  simp only [List.headD_cons, h1, h2, h3, h4, Bool.false_eq_true, if_false]
  constructor
  · intro h
    by_contra hc
    rw [if_neg (fun hh => hc hh.2)] at h
    split at h
    · exact absurd (congrArg Prod.fst h) (by decide)
    · split at h
      · exact absurd (congrArg Prod.fst h) (by decide)
      · exact absurd (congrArg Prod.fst h) (by decide)
  · intro h
    have hpos : 0 < List.countP (fun x => decide (x = ',')) s.data :=
      lt_of_lt_of_le (by norm_num) h
    obtain ⟨a, ha, hae⟩ := List.countP_pos_iff.mp hpos
    have ha' : ',' ∈ s.data := by
      have := of_decide_eq_true hae
      rwa [this] at ha
    have hcon : s.data.contains ',' = true := List.elem_eq_true_of_mem ha'
    rw [if_pos ⟨by rw [hcon, Bool.or_true], h⟩]

/-- Claim C3, witness: four commas with a `.csv` filename hit the
amended rule. -/
theorem C3_amended_witness :
    detect_format jdecNone ["a,b,c,d"] "log.csv" = (LogFormat.CSV, 0.8) :=
  (C3_amended jdecNone "a,b,c,d" [] "log.csv" (by decide) (by decide) (by decide)
    (by decide)).mpr (by decide)

/-- The decoded value of the line `{"a":{"b":1},"c":[1,2]}`. -/
def exJsonC6 : JsonVal :=
  .jobj (.ocons "a" (.jobj (.ocons "b" (.jint 1) .onil))
    (.ocons "c" (.jarr (.acons (.jint 1) (.acons (.jint 2) .anil))) .onil))

def lineC6 : String := "\x7b\"a\":\x7b\"b\":1\x7d,\"c\":[1,2]\x7d"

/-- A decoder for the single JSON line of claim C6. -/
def jdecC6 : String → Option JsonVal :=
  fun s => if s = lineC6 then some exJsonC6 else none

/-- Claim C6, counterexample: flattening `{"a":{"b":1},"c":[1,2]}`
yields only `a.b`; the scalar elements of the array under `c` are
dropped (the append happens only in the dict branch), so no `c` field
exists, contradicting the claimed `c → ["1","2"]`. -/
theorem C6_counterexample :
    (parse_json jdecC6 [lineC6]).1 = [("a.b", ["1"])] ∧
    hasKey (parse_json jdecC6 [lineC6]).1 "c" = false := by
  constructor
  · decide
  · decide

/-- A JSON value that is not a container. -/
def isScalar : JsonVal → Bool
  | .jobj _ => false
  | .jarr _ => false
  | _ => true

/-- All elements of an array are scalars. -/
def arrAllScalar : JsonArr → Bool
  | .anil => true
  | .acons hd tl => isScalar hd && arrAllScalar tl

/-- Claim C6, amended: nested objects flatten with dot-joined key
paths, and arrays recurse per element under the same prefix, but a
scalar array element contributes nothing (only object elements inside
arrays can add fields): the example line yields exactly `a.b → ["1"]`
and no `c` field, and in general an all-scalar array leaves the field
table unchanged. -/
theorem extractArrItems_scalar (items : JsonArr) :
    ∀ (fs : Fields) (pre : String), arrAllScalar items = true →
      extractArrItems items fs pre = fs := by
  cases items with
  | anil => intro fs pre _; rfl
  | acons hd tl =>
    intro fs pre h
    rw [arrAllScalar, Bool.and_eq_true] at h
    have hhd : extract_fields_recursive hd fs pre = fs := by
      cases hd with
      | jobj entries => simp [isScalar] at h
      | jarr its => simp [isScalar] at h
      | jnull => rfl
      | jbool b => rfl
      | jint n => rfl
      | jstr s => rfl
    show extractArrItems tl (extract_fields_recursive hd fs pre) pre = fs
    rw [hhd]
    exact extractArrItems_scalar tl fs pre h.2

theorem C6_amended :
    (parse_json jdecC6 [lineC6]).1 = [("a.b", ["1"])] ∧
    (∀ (items : JsonArr) (fs : Fields) (pre : String),
      arrAllScalar items = true → extractArrItems items fs pre = fs) := by
  constructor
  · decide
  · exact extractArrItems_scalar

/-- Claim C6, witness: the amended claim applied to the concrete
all-scalar array `[1,2]` under prefix `c`. -/
theorem C6_amended_witness :
    (parse_json jdecC6 [lineC6]).1 = [("a.b", ["1"])] ∧
    extractArrItems (.acons (.jint 1) (.acons (.jint 2) .anil)) [("a.b", ["1"])] "c" =
      [("a.b", ["1"])] :=
  ⟨C6_amended.1, C6_amended.2 _ _ _ (by decide)⟩

/-- Claim C7 (confirmed): a table row whose pipe-split cell list (outer
segments dropped, cells stripped) has exactly 5 cells is parsed as the
legacy shape with `field_flag` inferred from the lowercased
transformation cell (`alias` gives `extracted`, anything else gives
`calculated`); 6 or more cells use the fixed column order; fewer than 5
cells produce no FieldMapping. -/
theorem C7 (line : String) :
    ((rowCells line).length < 5 → rowToMapping line = none) ∧
    ((rowCells line).length = 5 →
      rowToMapping line = some
        { raw_field := (rowCells line).getD 0 "",
          cim_field := (rowCells line).getD 1 "",
          transformation := (rowCells line).getD 2 "",
          field_flag :=
            if pyLower ((rowCells line).getD 2 "") == "alias" then "extracted"
            else "calculated",
          requirement := (rowCells line).getD 3 "",
          notes := (rowCells line).getD 4 "" }) ∧
    (6 ≤ (rowCells line).length →
      rowToMapping line = some
        { raw_field := (rowCells line).getD 0 "",
          cim_field := (rowCells line).getD 1 "",
          transformation := (rowCells line).getD 2 "",
          field_flag := (rowCells line).getD 3 "",
          requirement := (rowCells line).getD 4 "",
          notes := (rowCells line).getD 5 "" }) := by
  refine ⟨?_, ?_, ?_⟩
  · intro h
    simp only [rowToMapping]
    rw [if_neg (by omega)]
  · intro h
    simp only [rowToMapping]
    rw [if_pos (by omega), if_neg (by omega)]
  · intro h
    simp only [rowToMapping]
    rw [if_pos (by omega), if_pos (by omega)]

/-- Claim C7, witness: a legacy 5-cell row with a non-alias
transformation, a 6-cell row, and a dropped 3-cell row. -/
theorem C7_witness :
    rowToMapping "| a | b | Eval | Req | note |" =
      some { raw_field := "a", cim_field := "b", transformation := "Eval",
             field_flag := "calculated", requirement := "Req", notes := "note" } ∧
    rowToMapping "| a | b | c | d | e | f |" =
      some { raw_field := "a", cim_field := "b", transformation := "c",
             field_flag := "d", requirement := "e", notes := "f" } ∧
    rowToMapping "| a | b | c |" = none := by
  refine ⟨?_, ?_, ?_⟩
  · exact ((C7 "| a | b | Eval | Req | note |").2.1 (by decide)).trans (by decide)
  · exact ((C7 "| a | b | c | d | e | f |").2.2 (by decide)).trans (by decide)
  · exact (C7 "| a | b | c |").1 (by decide)

/-- Claim C9 (confirmed): in `cloud` mode the enterprise block is
skipped, so the artifact dictionary never contains `props_conf`. -/
theorem C9 (mr : MappingResult) (st : String) :
    (generate_output "cloud" mr st).lookup "props_conf" = none := rfl

/-- Substring containment on strings. -/
def strInfix (needle hay : String) : Prop :=
  needle.data <:+: hay.data

instance (n h : String) : Decidable (strInfix n h) := by
  unfold strInfix
  infer_instance

/-- Claim C10 (confirmed): both section conditions are disjunctions of
the transformation check and the field-flag check, so a mapping with
transformation `Eval` and flag `extracted` (or `Alias` and
`calculated`) satisfies the alias condition and the calculated
condition simultaneously, in the gui walkthrough and in props.conf, and
is rendered once in each section. -/
theorem C10 :
    (∀ m : FieldMapping, pyLower m.transformation = "eval" →
      pyLower m.field_flag = "extracted" →
      guiAliasCond m = true ∧ guiCalcCond m = true ∧
        propsAliasCond m = true ∧ propsCalcCond m = true) ∧
    (∀ m : FieldMapping, pyLower m.transformation = "alias" →
      pyLower m.field_flag = "calculated" →
      guiAliasCond m = true ∧ guiCalcCond m = true ∧
        propsAliasCond m = true ∧ propsCalcCond m = true) ∧
    (∀ (st : String) (ev : List (String × String)) (m : FieldMapping),
      guiAliasCond m = true → guiCalcCond m = true →
      guiAliasLoop st [m] 1 = (guiAliasBlock st m 1, 2) ∧
      guiCalcLoop st ev [m] 1 =
        (guiCalcBlock st m
          (dictGetD ev m.cim_field ("coalesce(" ++ m.raw_field ++ ", null)")) 1, 2) ∧
      [m].filter propsAliasCond = [m] ∧ [m].filter propsCalcCond = [m]) := by
  refine ⟨?_, ?_, ?_⟩
  · intro m ht hf
    refine ⟨?_, ?_, ?_, ?_⟩ <;> simp [guiAliasCond, guiCalcCond, propsAliasCond,
      propsCalcCond, ht, hf]
  · intro m ht hf
    refine ⟨?_, ?_, ?_, ?_⟩ <;> simp [guiAliasCond, guiCalcCond, propsAliasCond,
      propsCalcCond, ht, hf]
  · intro st ev m ha hc
    refine ⟨?_, ?_, ?_, ?_⟩
    · simp [guiAliasLoop, ha]
    · simp [guiCalcLoop, hc]
    · have hpa : propsAliasCond m = true := by
        unfold guiAliasCond at ha
        unfold propsAliasCond
        rcases (Bool.or_eq_true _ _).mp ha with h | h <;> simp [h]
      simp [List.filter, hpa]
    · have hpc : propsCalcCond m = true := by
        unfold guiCalcCond at hc
        unfold propsCalcCond
        rcases (Bool.or_eq_true _ _).mp hc with h | h <;> simp [h]
      simp [List.filter, hpc]

/-- The mapping with transformation `Eval` and flag `extracted` used in
the claim C10 witness. -/
def mC10 : FieldMapping :=
  { raw_field := "rf", cim_field := "cf", transformation := "Eval",
    field_flag := "extracted", requirement := "Req", notes := "n" }

/-- Claim C10, witness: the double rendering realised on the concrete
mapping (`Eval`, `extracted`). -/
theorem C10_witness :
    guiAliasCond mC10 = true ∧ guiCalcCond mC10 = true ∧
    guiAliasLoop "st" [mC10] 1 = (guiAliasBlock "st" mC10 1, 2) := by
  have h1 := C10.1 mC10 (by decide) (by decide)
  have h3 := C10.2.2 "st" [] mC10 h1.1 h1.2.1
  exact ⟨h1.1, h1.2.1, h3.1⟩

/-- The vendor candidate of a decode result (a failed decode supplies
nothing). -/
def vendorCandO : Option JsonVal → Option JsonVal
  | none => none
  | some e => vendorCand e

/-- The product candidate of a decode result. -/
def productCandO : Option JsonVal → Option JsonVal
  | none => none
  | some e => productCand e

theorem parse_json_events_vendor_frozen (evs : List (Option JsonVal)) :
    ∀ (fs : Fields) (v p : Option JsonVal), optTruthy v = true →
      (parse_json_events evs fs v p).2.1 = v := by
  induction evs with
  | nil => intro fs v p _; rfl
  | cons e rest ih =>
    intro fs v p hv
    cases e with
    | none => exact ih fs v p hv
    | some ev =>
      show (parse_json_events rest _ (if optTruthy v then v else vendorCand ev) _).2.1 = v
      rw [if_pos hv]
      exact ih _ v _ hv

theorem parse_json_events_product_frozen (evs : List (Option JsonVal)) :
    ∀ (fs : Fields) (v p : Option JsonVal), optTruthy p = true →
      (parse_json_events evs fs v p).2.2 = p := by
  induction evs with
  | nil => intro fs v p _; rfl
  | cons e rest ih =>
    intro fs v p hp
    cases e with
    | none => exact ih fs v p hp
    | some ev =>
      show (parse_json_events rest _ _ (if optTruthy p then p else productCand ev)).2.2 = p
      rw [if_pos hp]
      exact ih _ _ p hp

theorem parse_json_events_vendor_first (pre : List (Option JsonVal)) (ev : JsonVal)
    (post : List (Option JsonVal)) :
    ∀ (fs : Fields) (v p : Option JsonVal), optTruthy v = false →
      (∀ e ∈ pre, optTruthy (vendorCandO e) = false) →
      optTruthy (vendorCand ev) = true →
      (parse_json_events (pre ++ some ev :: post) fs v p).2.1 = vendorCand ev := by
  induction pre with
  | nil =>
    intro fs v p hv _ hev
    show (parse_json_events post _ (if optTruthy v then v else vendorCand ev) _).2.1 = _
    rw [if_neg (by simp [hv])]
    exact parse_json_events_vendor_frozen post _ _ _ hev
  | cons e pre' ih =>
    intro fs v p hv hpre hev
    cases e with
    | none =>
      exact ih fs v p hv (fun x hx => hpre x (List.mem_cons_of_mem _ hx)) hev
    | some e' =>
      show (parse_json_events (pre' ++ some ev :: post) _
        (if optTruthy v then v else vendorCand e') _).2.1 = _
      rw [if_neg (by simp [hv])]
      refine ih _ _ _ ?_ (fun x hx => hpre x (List.mem_cons_of_mem _ hx)) hev
      simpa [vendorCandO] using hpre (some e') (List.mem_cons_self _ _)

theorem parse_json_events_product_first (pre : List (Option JsonVal)) (ev : JsonVal)
    (post : List (Option JsonVal)) :
    ∀ (fs : Fields) (v p : Option JsonVal), optTruthy p = false →
      (∀ e ∈ pre, optTruthy (productCandO e) = false) →
      optTruthy (productCand ev) = true →
      (parse_json_events (pre ++ some ev :: post) fs v p).2.2 = productCand ev := by
  induction pre with
  | nil =>
    intro fs v p hp _ hev
    have hstep : (if optTruthy p then p else productCand ev) = productCand ev :=
      if_neg (by simp [hp])
    show (parse_json_events post _ _ (if optTruthy p then p else productCand ev)).2.2 = _
    rw [hstep]
    exact parse_json_events_product_frozen post _ _ _ hev
  | cons e pre' ih =>
    intro fs v p hp hpre hev
    cases e with
    | none =>
      exact ih fs v p hp (fun x hx => hpre x (List.mem_cons_of_mem _ hx)) hev
    | some e' =>
      have hstep : (if optTruthy p then p else productCand e') = productCand e' :=
        if_neg (by simp [hp])
      show (parse_json_events (pre' ++ some ev :: post) _ _
        (if optTruthy p then p else productCand e')).2.2 = _
      rw [hstep]
      refine ih _ _ _ ?_ (fun x hx => hpre x (List.mem_cons_of_mem _ hx)) hev
      simpa [productCandO] using hpre (some e') (List.mem_cons_self _ _)

/-- Python truthiness of the optional vendor/product string slot. -/
def strOptTruthy : Option String → Bool
  | some s => s != ""
  | none => false

/-- The vendor group (2nd capture) of the first CEF match on a line. -/
def cefVendorOf (line : String) : Option String :=
  (cefSearch line.data).map (fun gs => (⟨gs.getD 1 []⟩ : String))

/-- The product group (3rd capture) of the first CEF match on a line. -/
def cefProductOf (line : String) : Option String :=
  (cefSearch line.data).map (fun gs => (⟨gs.getD 2 []⟩ : String))

/-- The line matches the CEF pattern with a non-empty vendor group. -/
def cefVendorTruthy (line : String) : Bool :=
  strOptTruthy (cefVendorOf line)

/-- The line matches the CEF pattern with a non-empty product group. -/
def cefProductTruthy (line : String) : Bool :=
  strOptTruthy (cefProductOf line)

theorem strOr_of_truthy {v : Option String} (g : String)
    (hv : strOptTruthy v = true) : strOr v g = v := by
  cases v with
  | none => simp [strOptTruthy] at hv
  | some s =>
    show (if (s == "") = true then some g else some s) = some s
    rw [if_neg]
    intro he
    rw [strOptTruthy] at hv
    simp [bne, he] at hv

theorem strOr_of_falsy {v : Option String} (g : String)
    (hv : strOptTruthy v = false) : strOr v g = some g := by
  cases v with
  | none => rfl
  | some s =>
    show (if (s == "") = true then some g else some s) = some g
    rw [if_pos]
    rw [strOptTruthy] at hv
    simpa using hv

theorem cef_vendor_frozen (lines : List String) :
    ∀ st : Fields × Option String × Option String, strOptTruthy st.2.1 = true →
      (List.foldl parse_cef_line st lines).2.1 = st.2.1 := by
  induction lines with
  | nil => intro st _; rfl
  | cons l rest ih =>
    intro st hv
    have hstep : (parse_cef_line st l).2.1 = st.2.1 := by
      unfold parse_cef_line
      cases hc : cefSearch l.data with
      | none => rfl
      | some gs => exact strOr_of_truthy _ hv
    calc (List.foldl parse_cef_line st (l :: rest)).2.1
        = (List.foldl parse_cef_line (parse_cef_line st l) rest).2.1 := rfl
      _ = (parse_cef_line st l).2.1 := ih _ (by rw [hstep]; exact hv)
      _ = st.2.1 := hstep

theorem cef_product_frozen (lines : List String) :
    ∀ st : Fields × Option String × Option String, strOptTruthy st.2.2 = true →
      (List.foldl parse_cef_line st lines).2.2 = st.2.2 := by
  induction lines with
  | nil => intro st _; rfl
  | cons l rest ih =>
    intro st hp
    have hstep : (parse_cef_line st l).2.2 = st.2.2 := by
      unfold parse_cef_line
      cases hc : cefSearch l.data with
      | none => rfl
      | some gs => exact strOr_of_truthy _ hp
    calc (List.foldl parse_cef_line st (l :: rest)).2.2
        = (List.foldl parse_cef_line (parse_cef_line st l) rest).2.2 := rfl
      _ = (parse_cef_line st l).2.2 := ih _ (by rw [hstep]; exact hp)
      _ = st.2.2 := hstep

theorem cef_vendor_first (pre : List String) (l : String) (post : List String) :
    ∀ st : Fields × Option String × Option String, strOptTruthy st.2.1 = false →
      (∀ x ∈ pre, cefVendorTruthy x = false) → cefVendorTruthy l = true →
      (List.foldl parse_cef_line st (pre ++ l :: post)).2.1 = cefVendorOf l := by
  induction pre with
  | nil =>
    intro st hv _ hl
    obtain ⟨gs, hgs⟩ : ∃ gs, cefSearch l.data = some gs := by
      unfold cefVendorTruthy cefVendorOf at hl
      cases hc : cefSearch l.data with
      | none => rw [hc] at hl; simp [strOptTruthy] at hl
      | some gs => exact ⟨gs, rfl⟩
    have hstep : (parse_cef_line st l).2.1 = some (⟨gs.getD 1 []⟩ : String) := by
      unfold parse_cef_line
      rw [hgs]
      exact strOr_of_falsy _ hv
    have hcv : cefVendorOf l = some (⟨gs.getD 1 []⟩ : String) := by
      unfold cefVendorOf
      rw [hgs, Option.map_some']
    have htr : strOptTruthy (parse_cef_line st l).2.1 = true := by
      rw [hstep]
      unfold cefVendorTruthy at hl
      rw [hcv] at hl
      exact hl
    calc (List.foldl parse_cef_line st (l :: post)).2.1
        = (List.foldl parse_cef_line (parse_cef_line st l) post).2.1 := rfl
      _ = (parse_cef_line st l).2.1 := cef_vendor_frozen post _ htr
      _ = cefVendorOf l := by rw [hstep, hcv]
  | cons x pre' ih =>
    intro st hv hpre hl
    show (List.foldl parse_cef_line (parse_cef_line st x) (pre' ++ l :: post)).2.1 = _
    refine ih _ ?_ (fun y hy => hpre y (List.mem_cons_of_mem _ hy)) hl
    have hx := hpre x (List.mem_cons_self _ _)
    unfold parse_cef_line
    cases hc : cefSearch x.data with
    | none => exact hv
    | some gs =>
      show strOptTruthy (strOr st.2.1 _) = false
      rw [strOr_of_falsy _ hv]
      unfold cefVendorTruthy cefVendorOf at hx
      rw [hc, Option.map_some'] at hx
      exact hx

theorem cef_product_first (pre : List String) (l : String) (post : List String) :
    ∀ st : Fields × Option String × Option String, strOptTruthy st.2.2 = false →
      (∀ x ∈ pre, cefProductTruthy x = false) → cefProductTruthy l = true →
      (List.foldl parse_cef_line st (pre ++ l :: post)).2.2 = cefProductOf l := by
  induction pre with
  | nil =>
    intro st hp _ hl
    obtain ⟨gs, hgs⟩ : ∃ gs, cefSearch l.data = some gs := by
      unfold cefProductTruthy cefProductOf at hl
      cases hc : cefSearch l.data with
      | none => rw [hc] at hl; simp [strOptTruthy] at hl
      | some gs => exact ⟨gs, rfl⟩
    have hstep : (parse_cef_line st l).2.2 = some (⟨gs.getD 2 []⟩ : String) := by
      unfold parse_cef_line
      rw [hgs]
      exact strOr_of_falsy _ hp
    have hcp : cefProductOf l = some (⟨gs.getD 2 []⟩ : String) := by
      unfold cefProductOf
      rw [hgs, Option.map_some']
    have htr : strOptTruthy (parse_cef_line st l).2.2 = true := by
      rw [hstep]
      unfold cefProductTruthy at hl
      rw [hcp] at hl
      exact hl
    calc (List.foldl parse_cef_line st (l :: post)).2.2
        = (List.foldl parse_cef_line (parse_cef_line st l) post).2.2 := rfl
      _ = (parse_cef_line st l).2.2 := cef_product_frozen post _ htr
      _ = cefProductOf l := by rw [hstep, hcp]
  | cons x pre' ih =>
    intro st hp hpre hl
    show (List.foldl parse_cef_line (parse_cef_line st x) (pre' ++ l :: post)).2.2 = _
    refine ih _ ?_ (fun y hy => hpre y (List.mem_cons_of_mem _ hy)) hl
    have hx := hpre x (List.mem_cons_self _ _)
    unfold parse_cef_line
    cases hc : cefSearch x.data with
    | none => exact hp
    | some gs =>
      show strOptTruthy (strOr st.2.2 _) = false
      rw [strOr_of_falsy _ hp]
      unfold cefProductTruthy cefProductOf at hx
      rw [hc, Option.map_some'] at hx
      exact hx

/-- Decoded value of `{"vendor": ""}`. -/
def exObjEmptyVendor : JsonVal := .jobj (.ocons "vendor" (.jstr "") .onil)

/-- Decoded value of `{"vendor": "X"}`. -/
def exObjVendorX : JsonVal := .jobj (.ocons "vendor" (.jstr "X") .onil)

/-- Decoded value of `{"product": ""}`. -/
def exObjEmptyProduct : JsonVal := .jobj (.ocons "product" (.jstr "") .onil)

/-- Decoded value of `{"product": "P"}`. -/
def exObjProductP : JsonVal := .jobj (.ocons "product" (.jstr "P") .onil)

/-- A decoder for the four concrete JSON lines of claim C4. -/
def jdecEx : String → Option JsonVal := fun s =>
  if s = "\x7b\"vendor\": \"\"\x7d" then some exObjEmptyVendor
  else if s = "\x7b\"vendor\": \"X\"\x7d" then some exObjVendorX
  else if s = "\x7b\"product\": \"\"\x7d" then some exObjEmptyProduct
  else if s = "\x7b\"product\": \"P\"\x7d" then some exObjProductP
  else none

/-- Claim C4, counterexample: the first JSON line carries the key
`vendor` with value `""`, yet the returned vendor is the second line's
`"X"` — first match does not win for falsy values (`if not vendor`
treats `""` as missing).  Likewise for CEF: the first matching line's
empty 2nd group is overwritten by the second line's `V2`. -/
theorem C4_counterexample :
    (parse_json jdecEx ["\x7b\"vendor\": \"\"\x7d", "\x7b\"vendor\": \"X\"\x7d"]).2.1 =
      some (JsonVal.jstr "X") ∧
    jsonGet exObjEmptyVendor "vendor" = some (JsonVal.jstr "") ∧
    (some (JsonVal.jstr "X") : Option JsonVal) ≠ some (JsonVal.jstr "") ∧
    (parse_cef ["CEF:0||p|dv|s|n|sev|", "CEF:0|V2|p2|dv|s|n|sev|"]).2.1 = some "V2" ∧
    cefVendorOf "CEF:0||p|dv|s|n|sev|" = some "" ∧
    (some "V2" : Option String) ≠ some "" := by
  refine ⟨by decide, by decide, by decide, by decide, by decide, by decide⟩

/-- Claim C4, amended: for JSON inputs the returned vendor (and
product) is the candidate of the first decoded line whose candidate
chain (`vendor` / `Vendor` / `source_vendor`, Python-falsy values
skipped) is truthy, and once truthy it is never overwritten; lines
supplying only empty/falsy values do not fix it.  For CEF the vendor
and product come from the 2nd/3rd pipe groups of the first matching
line whose group is non-empty, within the 100-line lookahead. -/
theorem C4_amended :
    (∀ (jdec : String → Option JsonVal) (lines : List String)
      (pre : List (Option JsonVal)) (ev : JsonVal) (post : List (Option JsonVal)),
      (lines.take 100).map jdec = pre ++ some ev :: post →
      (∀ e ∈ pre, optTruthy (vendorCandO e) = false) →
      optTruthy (vendorCand ev) = true →
      (parse_json jdec lines).2.1 = vendorCand ev) ∧
    (∀ (jdec : String → Option JsonVal) (lines : List String)
      (pre : List (Option JsonVal)) (ev : JsonVal) (post : List (Option JsonVal)),
      (lines.take 100).map jdec = pre ++ some ev :: post →
      (∀ e ∈ pre, optTruthy (productCandO e) = false) →
      optTruthy (productCand ev) = true →
      (parse_json jdec lines).2.2 = productCand ev) ∧
    (∀ (lines pre post : List String) (l : String),
      lines.take 100 = pre ++ l :: post →
      (∀ x ∈ pre, cefVendorTruthy x = false) → cefVendorTruthy l = true →
      (parse_cef lines).2.1 = cefVendorOf l) ∧
    (∀ (lines pre post : List String) (l : String),
      lines.take 100 = pre ++ l :: post →
      (∀ x ∈ pre, cefProductTruthy x = false) → cefProductTruthy l = true →
      (parse_cef lines).2.2 = cefProductOf l) := by
  refine ⟨?_, ?_, ?_, ?_⟩
  · intro jdec lines pre ev post htake hpre hev
    unfold parse_json
    rw [htake]
    exact parse_json_events_vendor_first pre ev post [] none none rfl hpre hev
  · intro jdec lines pre ev post htake hpre hev
    unfold parse_json
    rw [htake]
    exact parse_json_events_product_first pre ev post [] none none rfl hpre hev
  · intro lines pre post l htake hpre hl
    unfold parse_cef
    rw [htake]
    exact cef_vendor_first pre l post (cefInit, none, none) rfl hpre hl
  · intro lines pre post l htake hpre hl
    unfold parse_cef
    rw [htake]
    exact cef_product_first pre l post (cefInit, none, none) rfl hpre hl

/-- Claim C4, witness: all four parts applied at concrete two-line
inputs whose first line carries an empty value. -/
theorem C4_amended_witness :
    (parse_json jdecEx ["\x7b\"vendor\": \"\"\x7d", "\x7b\"vendor\": \"X\"\x7d"]).2.1 =
      some (JsonVal.jstr "X") ∧
    (parse_json jdecEx ["\x7b\"product\": \"\"\x7d", "\x7b\"product\": \"P\"\x7d"]).2.2 =
      some (JsonVal.jstr "P") ∧
    (parse_cef ["CEF:0||p|dv|s|n|sev|", "CEF:0|V2|p2|dv|s|n|sev|"]).2.1 = some "V2" ∧
    (parse_cef ["CEF:0|v|||s|n|sev|", "CEF:0|v2|P2||s|n|sev|"]).2.2 = some "P2" := by
  refine ⟨?_, ?_, ?_, ?_⟩
  · exact (C4_amended.1 jdecEx ["\x7b\"vendor\": \"\"\x7d", "\x7b\"vendor\": \"X\"\x7d"]
      [some exObjEmptyVendor] exObjVendorX [] (by decide) (by decide) (by decide)).trans
      (by decide)
  · exact (C4_amended.2.1 jdecEx ["\x7b\"product\": \"\"\x7d", "\x7b\"product\": \"P\"\x7d"]
      [some exObjEmptyProduct] exObjProductP [] (by decide) (by decide) (by decide)).trans
      (by decide)
  · exact (C4_amended.2.2.1 ["CEF:0||p|dv|s|n|sev|", "CEF:0|V2|p2|dv|s|n|sev|"]
      ["CEF:0||p|dv|s|n|sev|"] [] "CEF:0|V2|p2|dv|s|n|sev|" (by decide) (by decide)
      (by decide)).trans (by decide)
  · exact (C4_amended.2.2.2 ["CEF:0|v|||s|n|sev|", "CEF:0|v2|P2||s|n|sev|"]
      ["CEF:0|v|||s|n|sev|"] [] "CEF:0|v2|P2||s|n|sev|" (by decide) (by decide)
      (by decide)).trans (by decide)

theorem infixPeel {α : Type} {n t : List α} {s : List α} (h : n <:+: t) : n <:+: s ++ t := by
  obtain ⟨a, b, rfl⟩ := h
  exact ⟨s ++ a, b, by simp [List.append_assoc]⟩

theorem infixFront {α : Type} (n t : List α) : n <:+: n ++ t := ⟨[], t, by simp⟩

theorem strInfix_ne_empty {n h : String} (hi : strInfix n h) (hn : n ≠ "") : h ≠ "" := by
  intro h0
  apply hn
  obtain ⟨a, b, he⟩ := hi
  rw [h0] at he
  have h2 : (a ++ n.data ++ b).length = ([] : List Char).length := by rw [he]
  simp only [List.length_append, List.length_nil] at h2
  have hn0 : n.data = [] := List.length_eq_zero.mp (by omega)
  apply String.ext
  rw [hn0]

set_option maxRecDepth 10000 in
/-- Claim C8 (confirmed): with zero field mappings and mode `both`, all
six artifact kinds are rendered (the model is total, so no exception is
possible), each text is non-empty, the gui walkthrough and props.conf
carry their explicit none-needed placeholders, transforms.conf is the
no-lookup placeholder comment, and the validation queries fall back to
the literal placeholder field names. -/
theorem C8 (mr : MappingResult) (st : String)
    (hmap : parse_mapping_result mr.mapping = []) :
    (generate_output "both" mr st).map Prod.fst =
      ["gui_instructions", "props_conf", "transforms_conf", "eventtypes_conf",
       "tags_conf", "validation_spl"] ∧
    (∀ p ∈ generate_output "both" mr st, p.2 ≠ "") ∧
    (∀ p ∈ generate_output "both" mr st, p.1 = "gui_instructions" →
      strInfix "_No field aliases needed for this log source._\n\n" p.2 ∧
      strInfix "_No calculated fields needed for this log source._\n\n" p.2) ∧
    (∀ p ∈ generate_output "both" mr st, p.1 = "props_conf" →
      strInfix "# No field aliases needed\n" p.2 ∧
      strInfix "# No calculated fields needed\n" p.2) ∧
    (∀ p ∈ generate_output "both" mr st, p.1 = "transforms_conf" →
      p.2 = "# No transforms.conf needed - no lookup transformations required") ∧
    (∀ p ∈ generate_output "both" mr st, p.1 = "validation_spl" →
      strInfix "action, src, dest, user" p.2) := by
  have hout : generate_output "both" mr st =
      [("gui_instructions", generate_gui_instructions (parse_mapping_result mr.mapping)
          st mr.data_model mr.dataset (extract_tags mr.mapping)
          (extract_eval_expressions mr.mapping)),
       ("props_conf", generate_props_conf (parse_mapping_result mr.mapping) st
          mr.data_model mr.dataset (extract_eval_expressions mr.mapping)),
       ("transforms_conf", generate_transforms_conf (parse_mapping_result mr.mapping) st),
       ("eventtypes_conf", generate_eventtypes_conf st mr.data_model),
       ("tags_conf", generate_tags_conf st mr.data_model (extract_tags mr.mapping)),
       ("validation_spl", generate_validation_spl st mr.data_model mr.dataset
          (parse_mapping_result mr.mapping))] := rfl
  rw [hout, hmap]
  have hgui1 : strInfix "_No field aliases needed for this log source._\n\n"
      (generate_gui_instructions [] st mr.data_model mr.dataset
        (extract_tags mr.mapping) (extract_eval_expressions mr.mapping)) := by
    unfold strInfix
    simp only [generate_gui_instructions, guiAliasLoop, guiCalcLoop, List.map_nil,
      List.take_nil, List.isEmpty_nil, joinComma, String.join, if_true,
      String.data_append, List.append_assoc]
    repeat first
      | exact List.infix_refl _
      | exact infixFront _ _
      | apply infixPeel
  have hgui2 : strInfix "_No calculated fields needed for this log source._\n\n"
      (generate_gui_instructions [] st mr.data_model mr.dataset
        (extract_tags mr.mapping) (extract_eval_expressions mr.mapping)) := by
    unfold strInfix
    simp only [generate_gui_instructions, guiAliasLoop, guiCalcLoop, List.map_nil,
      List.take_nil, List.isEmpty_nil, joinComma, String.join, if_true,
      String.data_append, List.append_assoc]
    repeat first
      | exact List.infix_refl _
      | exact infixFront _ _
      | apply infixPeel
  have hprops1 : strInfix "# No field aliases needed\n"
      (generate_props_conf [] st mr.data_model mr.dataset
        (extract_eval_expressions mr.mapping)) := by
    unfold strInfix
    simp only [generate_props_conf, List.filter_nil, List.map_nil, List.isEmpty_nil,
      String.join, if_true, String.data_append, List.append_assoc]
    repeat first
      | exact List.infix_refl _
      | exact infixFront _ _
      | apply infixPeel
  have hprops2 : strInfix "# No calculated fields needed\n"
      (generate_props_conf [] st mr.data_model mr.dataset
        (extract_eval_expressions mr.mapping)) := by
    unfold strInfix
    simp only [generate_props_conf, List.filter_nil, List.map_nil, List.isEmpty_nil,
      String.join, if_true, String.data_append, List.append_assoc]
    repeat first
      | exact List.infix_refl _
      | exact infixFront _ _
      | apply infixPeel
  have htrans : generate_transforms_conf [] st =
      "# No transforms.conf needed - no lookup transformations required" := rfl
  have hev : strInfix "# eventtypes.conf for "
      (generate_eventtypes_conf st mr.data_model) := by
    unfold strInfix
    simp only [generate_eventtypes_conf, String.data_append, List.append_assoc]
    repeat first
      | exact List.infix_refl _
      | exact infixFront _ _
      | apply infixPeel
  have htags : strInfix "# tags.conf for "
      (generate_tags_conf st mr.data_model (extract_tags mr.mapping)) := by
    unfold strInfix
    unfold generate_tags_conf
    split <;>
    · simp only [String.data_append, List.append_assoc]
      repeat first
        | exact List.infix_refl _
        | exact infixFront _ _
        | apply infixPeel
  have hval : strInfix "action, src, dest, user"
      (generate_validation_spl st mr.data_model mr.dataset []) := by
    unfold strInfix
    simp only [generate_validation_spl, List.filter_nil, List.map_nil, List.take_nil,
      List.isEmpty_nil, joinComma, if_true, String.data_append, List.append_assoc]
    repeat first
      | exact List.infix_refl _
      | exact infixFront _ _
      | apply infixPeel
  refine ⟨by simp, ?_, ?_, ?_, ?_, ?_⟩
  · intro p hp
    simp only [List.mem_cons, List.not_mem_nil, or_false] at hp
    rcases hp with rfl | rfl | rfl | rfl | rfl | rfl
    · exact strInfix_ne_empty hgui1 (by decide)
    · exact strInfix_ne_empty hprops1 (by decide)
    · rw [htrans]; decide
    · exact strInfix_ne_empty hev (by decide)
    · exact strInfix_ne_empty htags (by decide)
    · exact strInfix_ne_empty hval (by decide)
  · intro p hp
    simp only [List.mem_cons, List.not_mem_nil, or_false] at hp
    rcases hp with rfl | rfl | rfl | rfl | rfl | rfl
    · exact fun _ => ⟨hgui1, hgui2⟩
    · exact fun h => by simp at h
    · exact fun h => by simp at h
    · exact fun h => by simp at h
    · exact fun h => by simp at h
    · exact fun h => by simp at h
  · intro p hp
    simp only [List.mem_cons, List.not_mem_nil, or_false] at hp
    rcases hp with rfl | rfl | rfl | rfl | rfl | rfl
    · exact fun h => by simp at h
    · exact fun _ => ⟨hprops1, hprops2⟩
    · exact fun h => by simp at h
    · exact fun h => by simp at h
    · exact fun h => by simp at h
    · exact fun h => by simp at h
  · intro p hp
    simp only [List.mem_cons, List.not_mem_nil, or_false] at hp
    rcases hp with rfl | rfl | rfl | rfl | rfl | rfl
    · exact fun h => by simp at h
    · exact fun h => by simp at h
    · exact fun _ => htrans
    · exact fun h => by simp at h
    · exact fun h => by simp at h
    · exact fun h => by simp at h
  · intro p hp
    simp only [List.mem_cons, List.not_mem_nil, or_false] at hp
    rcases hp with rfl | rfl | rfl | rfl | rfl | rfl
    · exact fun h => by simp at h
    · exact fun h => by simp at h
    · exact fun h => by simp at h
    · exact fun h => by simp at h
    · exact fun h => by simp at h
    · exact fun _ => hval

/-- A mapping result whose mapping text yields no FieldMapping rows. -/
def mrEmpty : MappingResult :=
  { mapping := "", data_model := "Authentication", dataset := "Login" }

/-- Claim C8, witness: a concrete empty mapping result renders all six
artifact kinds, each non-empty. -/
theorem C8_witness :
    (generate_output "both" mrEmpty "t").map Prod.fst =
      ["gui_instructions", "props_conf", "transforms_conf", "eventtypes_conf",
       "tags_conf", "validation_spl"] ∧
    (∀ p ∈ generate_output "both" mrEmpty "t", p.2 ≠ "") :=
  ⟨(C8 mrEmpty "t" rfl).1, (C8 mrEmpty "t" rfl).2.1⟩

/-! ## Claim C5: the repair step -/

theorem dropWhile_all_neg {p : Char → Bool} :
    ∀ {l : List Char}, (∀ c ∈ l, p c = false) → l.dropWhile p = l := by
  intro l h
  cases l with
  | nil => rfl
  | cons c t =>
    rw [List.dropWhile_cons, if_neg (by simp [h c (List.mem_cons_self c t)])]

theorem pyStripL_id {l : List Char} (h : ∀ c ∈ l, isPyWs c = false) :
    pyStripL l = l := by
  unfold pyStripL
  rw [dropWhile_all_neg h, dropWhile_all_neg (fun c hc => h c (List.mem_reverse.mp hc)),
    List.reverse_reverse]

theorem pyStripSetL_id {cs l : List Char} (h : ∀ c ∈ l, cs.contains c = false) :
    pyStripSetL cs l = l := by
  unfold pyStripSetL
  rw [dropWhile_all_neg h, dropWhile_all_neg (fun c hc => h c (List.mem_reverse.mp hc)),
    List.reverse_reverse]

theorem takeRun_cons_pos {p : Char → Bool} {c : Char} (l : List Char) (hc : p c = true) :
    takeRun p (c :: l) = (c :: (takeRun p l).1, (takeRun p l).2) := by
  simp [takeRun, hc]

theorem takeRun_cons_neg {p : Char → Bool} {c : Char} (l : List Char) (hc : p c = false) :
    takeRun p (c :: l) = ([], c :: l) := by
  simp [takeRun, hc]

theorem cellGroup_token (v : List Char) (hv : v ≠ [])
    (h : ∀ c ∈ v, isPyWs c = false ∧ c ≠ '|') (t : List Char) :
    cellGroup (v ++ ' ' :: '|' :: t) = some (v, v.length + 2) := by
  induction v with
  | nil => exact absurd rfl hv
  | cons c v' ih =>
    have hc := h c (List.mem_cons_self _ _)
    cases v' with
    | nil =>
      show cellGroup (c :: ' ' :: '|' :: t) = some ([c], 1 + 2)
      unfold cellGroup
      rw [if_neg hc.2]
      have hclose : cellClose (' ' :: '|' :: t) = some 2 := by
        unfold cellClose
        have htr : takeRun isPyWs (' ' :: '|' :: t) = ([' '], '|' :: t) := by
          simp [takeRun, isPyWs]
        rw [htr]
        rfl
      rw [hclose]
    | cons d v'' =>
      have hd := h d (by simp)
      show cellGroup (c :: ((d :: v'') ++ ' ' :: '|' :: t)) = _
      unfold cellGroup
      rw [if_neg hc.2]
      have hclose : cellClose ((d :: v'') ++ ' ' :: '|' :: t) = none := by
        unfold cellClose
        have htr : takeRun isPyWs ((d :: v'') ++ ' ' :: '|' :: t) =
            ([], (d :: v'') ++ ' ' :: '|' :: t) := by
          simp [takeRun, hd.1]
        rw [htr]
        simp only [List.cons_append]
        simp [hd.2]
      rw [hclose]
      rw [ih (by simp) (fun x hx => h x (List.mem_cons_of_mem _ hx))]
      show some (c :: (d :: v''), 1 + ((d :: v'').length + 2)) =
        some (c :: d :: v'', (c :: d :: v'').length + 2)
      have harith : 1 + ((d :: v'').length + 2) = (c :: d :: v'').length + 2 := by
        simp [List.length_cons]
        omega
      rw [harith]

theorem firstCellMatch_token (v rest : List Char) (hv : v ≠ [])
    (h : ∀ c ∈ v, isPyWs c = false ∧ c ≠ '|') :
    firstCellMatch ('|' :: ' ' :: (v ++ ' ' :: '|' :: rest)) =
      some (v, v.length + 4) := by
  obtain ⟨c, v', hveq⟩ := List.exists_cons_of_ne_nil hv
  have hc : isPyWs c = false ∧ c ≠ '|' := by
    rw [hveq] at h
    exact h c (List.mem_cons_self _ _)
  have htr : takeRun isPyWs (' ' :: (v ++ ' ' :: '|' :: rest)) =
      ([' '], v ++ ' ' :: '|' :: rest) := by
    rw [takeRun_cons_pos _ (by decide), hveq, List.cons_append, takeRun_cons_neg _ hc.1]
  show (cellSearch (' ' :: (v ++ ' ' :: '|' :: rest))
      (takeRun isPyWs (' ' :: (v ++ ' ' :: '|' :: rest))).1.length).map
        (fun gn => (gn.1, 1 + gn.2)) = _
  rw [htr]
  show (cellSearch (' ' :: (v ++ ' ' :: '|' :: rest)) 1).map
    (fun gn => (gn.1, 1 + gn.2)) = _
  have hcell : tryCellAt (' ' :: (v ++ ' ' :: '|' :: rest)) 1 =
      some (v, 1 + (v.length + 2)) := by
    unfold tryCellAt
    show (cellGroup (v ++ ' ' :: '|' :: rest)).map _ = _
    rw [cellGroup_token v hv h rest]
    rfl
  unfold cellSearch
  rw [hcell]
  show some (v, 1 + (1 + (v.length + 2))) = some (v, v.length + 4)
  have harith : 1 + (1 + (v.length + 2)) = v.length + 4 := by omega
  rw [harith]

theorem isPrefixOf_append_self (v t : List Char) : v.isPrefixOf (v ++ t) = true := by
  induction v with
  | nil => simp [List.isPrefixOf]
  | cons c v' ih => simp [List.isPrefixOf, ih]

theorem isPrefixOf_cons_neg {c d : Char} (v r : List Char) (h : c ≠ d) :
    (c :: v).isPrefixOf (d :: r) = false := by
  simp [List.isPrefixOf]
  intro he
  exact absurd he h

theorem replaceFirstSub_token {c : Char} (v' f t : List Char)
    (hc : isPyWs c = false ∧ c ≠ '|') :
    replaceFirstSub (c :: v') f ('|' :: ' ' :: ((c :: v') ++ t)) =
      '|' :: ' ' :: (f ++ t) := by
  have hcs : c ≠ ' ' := by
    intro he
    rw [he] at hc
    exact absurd hc.1 (by decide)
  have h1 : (c :: v').isPrefixOf ('|' :: ' ' :: ((c :: v') ++ t)) = false :=
    isPrefixOf_cons_neg _ _ hc.2
  have h2 : (c :: v').isPrefixOf (' ' :: ((c :: v') ++ t)) = false :=
    isPrefixOf_cons_neg _ _ hcs
  have h3 : (c :: v').isPrefixOf ((c :: v') ++ t) = true := isPrefixOf_append_self _ _
  show (if ((c :: v').isPrefixOf ('|' :: ' ' :: ((c :: v') ++ t))) = true then _
    else '|' :: replaceFirstSub (c :: v') f (' ' :: ((c :: v') ++ t))) = _
  rw [h1]
  simp only [Bool.false_eq_true, if_false]
  show ('|' :: if ((c :: v').isPrefixOf (' ' :: ((c :: v') ++ t))) = true then _
    else ' ' :: replaceFirstSub (c :: v') f ((c :: v') ++ t)) = _
  rw [h2]
  simp only [Bool.false_eq_true, if_false]
  show ('|' :: ' ' :: if ((c :: v').isPrefixOf ((c :: v') ++ t)) = true
    then f ++ ((c :: v') ++ t).drop (c :: v').length else _) = _
  rw [h3]
  simp only [if_true]
  rw [List.drop_left]

theorem repairAux_no_newline (fs : Fields) (v2f : List (String × String)) :
    ∀ (l : List Char) (fuel : Nat), l.length ≤ fuel → (∀ c ∈ l, c ≠ '\n') →
      repairAux fs v2f fuel l false = (l, []) := by
  intro l
  induction l with
  | nil =>
    intro fuel _ _
    cases fuel <;> rfl
  | cons c cs ih =>
    intro fuel hf hn
    cases fuel with
    | zero => simp at hf
    | succ f =>
      show repairAux fs v2f (f + 1) (c :: cs) false = (c :: cs, [])
      unfold repairAux
      rw [if_neg (by simp)]
      have hd : (decide (c = '\n')) = false :=
        decide_eq_false (hn c (List.mem_cons_self _ _))
      rw [hd]
      rw [ih f (by simpa using Nat.succ_le_succ_iff.mp hf)
        (fun x hx => hn x (List.mem_cons_of_mem _ hx))]

theorem repairAux_single_row (fname val : String) (rest : List Char) (fuel : Nat)
    (hfuel : rest.length ≤ fuel)
    (hv : val.data ≠ [])
    (htok : ∀ c ∈ val.data, isPyWs c = false ∧ c ≠ '|')
    (hkey : hasKey [(fname, [val])] val = false)
    (hq : stripQuotesSeq val = val)
    (hrest : ∀ c ∈ rest, c ≠ '\n') :
    repairAux [(fname, [val])] [(val, fname)] (fuel + 1)
      ('|' :: ' ' :: (val.data ++ ' ' :: '|' :: rest)) true =
      ('|' :: ' ' :: (fname.data ++ ' ' :: '|' :: rest),
       ["Repaired: '" ++ val ++ "' -> '" ++ fname ++ "'"]) := by
  have htake : (' ' :: (val.data ++ ' ' :: '|' :: rest)).take (val.data.length + 3) =
      ' ' :: (val.data ++ [' ', '|']) := by
    have h1 : val.data.length + 3 = (val.data).length + 2 + 1 := by omega
    rw [h1]
    show (' ' :: (val.data ++ ' ' :: '|' :: rest)).take (val.data.length + 2 + 1) = _
    rw [List.take_succ_cons]
    rw [show val.data.length + 2 = (val.data).length + 2 from rfl]
    rw [List.take_append 2]
    rfl
  have hdrop : (' ' :: (val.data ++ ' ' :: '|' :: rest)).drop (val.data.length + 3) =
      rest := by
    have h1 : val.data.length + 3 = (val.data).length + 2 + 1 := by omega
    rw [h1, List.drop_succ_cons, List.drop_append 2]
    rfl
  have hs : pyStripL val.data = val.data := pyStripL_id (fun c hc => (htok c hc).1)
  obtain ⟨c, v', hveq⟩ := List.exists_cons_of_ne_nil hv
  have hrr : replace_row [(fname, [val])] [(val, fname)]
      ('|' :: ' ' :: (val.data ++ [' ', '|'])) val.data =
      ('|' :: ' ' :: (fname.data ++ [' ', '|']),
       ["Repaired: '" ++ val ++ "' -> '" ++ fname ++ "'"]) := by
    unfold replace_row
    rw [hs]
    simp only [show (⟨val.data⟩ : String) = val from rfl]
    rw [hkey]
    simp only [Bool.false_eq_true, if_false]
    rw [hq]
    have hfind : List.find? (fun p => p.1 == val) [(val, fname)] = some (val, fname) := by
      simp [List.find?]
    rw [hfind]
    show (replaceFirstSub val.data fname.data ('|' :: ' ' :: (val.data ++ [' ', '|'])),
      ["Repaired: '" ++ val ++ "' -> '" ++ fname ++ "'"]) =
      ('|' :: ' ' :: (fname.data ++ [' ', '|']),
       ["Repaired: '" ++ val ++ "' -> '" ++ fname ++ "'"])
    have hrep : replaceFirstSub val.data fname.data
        ('|' :: ' ' :: (val.data ++ [' ', '|'])) =
        '|' :: ' ' :: (fname.data ++ [' ', '|']) := by
      rw [hveq]
      exact replaceFirstSub_token v' fname.data [' ', '|']
        (by rw [hveq] at htok; exact htok c (List.mem_cons_self _ _))
    rw [hrep]
  show repairAux [(fname, [val])] [(val, fname)] (fuel + 1)
    ('|' :: ' ' :: (val.data ++ ' ' :: '|' :: rest)) true = _
  unfold repairAux
  rw [if_pos ⟨rfl, rfl⟩]
  rw [firstCellMatch_token val.data rest hv htok]
  show ((replace_row [(fname, [val])] [(val, fname)]
      ('|' :: (' ' :: (val.data ++ ' ' :: '|' :: rest)).take (val.data.length + 3))
      val.data).1 ++
    (repairAux [(fname, [val])] [(val, fname)] fuel
      ((' ' :: (val.data ++ ' ' :: '|' :: rest)).drop (val.data.length + 3)) false).1,
    (replace_row [(fname, [val])] [(val, fname)]
      ('|' :: (' ' :: (val.data ++ ' ' :: '|' :: rest)).take (val.data.length + 3))
      val.data).2 ++
    (repairAux [(fname, [val])] [(val, fname)] fuel
      ((' ' :: (val.data ++ ' ' :: '|' :: rest)).drop (val.data.length + 3)) false).2) = _
  rw [htake, hdrop, hrr, repairAux_no_newline [(fname, [val])] [(val, fname)] rest fuel
    hfuel hrest]
  simp [List.append_assoc]

/-- Claim C5 (confirmed): the concrete repair example of the claim, and
in general a first cell that is a pipe-free, unquoted, whitespace-free
token which is not a known field name but is a known observed value
(length above one) is replaced in place by its originating field name,
with exactly one recorded repair note. -/
theorem C5 :
    repair_mapping "| 192.168.1.1 | src | Alias | extracted | Required | note |"
        [("src_ip", ["192.168.1.1"])] =
      ("| src_ip | src | Alias | extracted | Required | note |",
       ["Repaired: '192.168.1.1' -> 'src_ip'"]) ∧
    (∀ (fname val : String) (rest : List Char),
      val.data ≠ [] →
      (∀ c ∈ val.data, isPyWs c = false ∧ c ≠ '|' ∧ c ≠ '"' ∧ c ≠ '\'') →
      1 < val.length →
      fname ≠ val →
      (∀ c ∈ rest, c ≠ '\n') →
      repair_mapping ⟨'|' :: ' ' :: (val.data ++ ' ' :: '|' :: rest)⟩ [(fname, [val])] =
        (⟨'|' :: ' ' :: (fname.data ++ ' ' :: '|' :: rest)⟩,
         ["Repaired: '" ++ val ++ "' -> '" ++ fname ++ "'"])) := by
  constructor
  · decide
  · intro fname val rest hv htok hlen hne hrest
    have hq1 : ∀ c ∈ val.data, (['"'] : List Char).contains c = false := by
      intro c hc
      simp only [List.contains_cons, List.elem_nil, Bool.or_false]
      exact beq_eq_false_iff_ne.mpr (htok c hc).2.2.1
    have hq2 : ∀ c ∈ val.data, (['\''] : List Char).contains c = false := by
      intro c hc
      simp only [List.contains_cons, List.elem_nil, Bool.or_false]
      exact beq_eq_false_iff_ne.mpr (htok c hc).2.2.2
    have h1 : pyStripSet ['"'] val = val := by
      show (⟨pyStripSetL ['"'] val.data⟩ : String) = val
      rw [pyStripSetL_id hq1]
    have hq : stripQuotesSeq val = val := by
      unfold stripQuotesSeq
      rw [h1]
      show (⟨pyStripSetL ['\''] val.data⟩ : String) = val
      rw [pyStripSetL_id hq2]
    have hkey : hasKey [(fname, [val])] val = false := by
      unfold hasKey
      simp only [List.any_cons, List.any_nil, Bool.or_false]
      exact beq_eq_false_iff_ne.mpr hne
    have hv2f : valueToField [(fname, [val])] = [(val, fname)] := by
      unfold valueToField
      simp only [List.foldl_cons, List.foldl_nil]
      rw [hq, if_pos hlen]
      rfl
    unfold repair_mapping
    rw [hv2f]
    show ((⟨(repairAux [(fname, [val])] [(val, fname)]
        (('|' :: ' ' :: (val.data ++ ' ' :: '|' :: rest)).length)
        ('|' :: ' ' :: (val.data ++ ' ' :: '|' :: rest)) true).1⟩ : String),
      (repairAux [(fname, [val])] [(val, fname)]
        (('|' :: ' ' :: (val.data ++ ' ' :: '|' :: rest)).length)
        ('|' :: ' ' :: (val.data ++ ' ' :: '|' :: rest)) true).2) = _
    have hlenT : ('|' :: ' ' :: (val.data ++ ' ' :: '|' :: rest)).length =
        (val.data.length + rest.length + 3) + 1 := by
      simp [List.length_cons, List.length_append]
      omega
    rw [hlenT]
    rw [repairAux_single_row fname val rest (val.data.length + rest.length + 3)
      (by omega) hv (fun c hc => ⟨(htok c hc).1, (htok c hc).2.1⟩) hkey hq hrest]

/-- Claim C5, witness: the general half applied at the claim's own row,
reproducing the concrete repair. -/
theorem C5_witness :
    repair_mapping "| 192.168.1.1 | src | Alias | extracted | Required | note |"
        [("src_ip", ["192.168.1.1"])] =
      ("| src_ip | src | Alias | extracted | Required | note |",
       ["Repaired: '192.168.1.1' -> 'src_ip'"]) :=
  (C5.2 "src_ip" "192.168.1.1" " src | Alias | extracted | Required | note |".data
    (by decide) (by decide) (by decide) (by decide) (by decide)).trans (by decide)
